import Mathlib

/-!
Verification development for the CRFCF parser
(`src/scripts/crfcf-parser.py`).

The parser is shallowly embedded: the mutable `CRFCFParser` object
(`self.lines`, `self.position`, `self.current_line`) is modelled by
explicit state passing of the list of not-yet-consumed lines together
with the 1-based `current_line` counter (in the Python source the
counter always equals `position + 1`, so the pair (remaining lines,
counter) carries the same information as the triple).  Pure helper
methods become Lean functions; the anchored regular expressions used by
the source are translated into deterministic matchers over `List Char`
(each pattern only combines disjoint character classes, so greedy
matching needs no backtracking except in the ordered-list pattern,
where the backtracking of `\s+` against `(.+)$` is resolved
explicitly).  Input lines come from `str.splitlines`, hence contain no
newline characters; `$` is therefore modelled as end-of-string.
The two parser loops that do not consume a line on every iteration
(`_parse_sections` and `_parse_section_body`) are modelled with a fuel
parameter; fuel exhaustion (`none`) models nontermination of the
Python loop, and the fuel supplied by the entry points
(`remaining length + 1`) is enough for every terminating run because
every iteration of a terminating run consumes at least one line.
`SyntaxError` is modelled by `Except Nat`, carrying the line number
embedded in the exception message.
-/

/-- Node types of the AST, from the `NodeType` enumeration. -/
inductive NodeType where
  | document
  | begin_marker
  | end_marker
  | disclaimer
  | main_section
  | subsection
  | specific_section
  | section_header
  | section_body
  | paragraph
  | ordered_list
  | unordered_list
  | list_item
  | footer_notes
deriving DecidableEq

/-- Tag string of a node type (the `.value` of the Python enum member). -/
def NodeType.tag : NodeType → String
  | NodeType.document => "document"
  | NodeType.begin_marker => "begin_marker"
  | NodeType.end_marker => "end_marker"
  | NodeType.disclaimer => "disclaimer"
  | NodeType.main_section => "main_section"
  | NodeType.subsection => "subsection"
  | NodeType.specific_section => "specific_section"
  | NodeType.section_header => "section_header"
  | NodeType.section_body => "section_body"
  | NodeType.paragraph => "paragraph"
  | NodeType.ordered_list => "ordered_list"
  | NodeType.unordered_list => "unordered_list"
  | NodeType.list_item => "list_item"
  | NodeType.footer_notes => "footer_notes"

/-- AST node (`ASTNode` dataclass): type, optional value, children,
optional 1-based line, optional level, metadata dictionary (a
string-to-string insertion-ordered mapping, modelled as a list of
pairs). -/
inductive ASTNode where
  | mk (node_type : NodeType) (value : Option String) (children : List ASTNode)
      (line : Option Nat) (level : Option Nat) (metadata : List (String × String))

def ASTNode.node_type : ASTNode → NodeType
  | ASTNode.mk t _ _ _ _ _ => t

def ASTNode.value : ASTNode → Option String
  | ASTNode.mk _ v _ _ _ _ => v

def ASTNode.children : ASTNode → List ASTNode
  | ASTNode.mk _ _ ch _ _ _ => ch

def ASTNode.line : ASTNode → Option Nat
  | ASTNode.mk _ _ _ ln _ _ => ln

def ASTNode.level : ASTNode → Option Nat
  | ASTNode.mk _ _ _ _ lv _ => lv

def ASTNode.metadata : ASTNode → List (String × String)
  | ASTNode.mk _ _ _ _ _ md => md

/-- Values of the dictionary produced by `ASTNode.to_dict`. -/
inductive JVal where
  | s (v : String)
  | n (v : Nat)
  | arr (l : List JVal)
  | obj (l : List (String × JVal))

mutual

/-- The `ASTNode.to_dict` method: a key-ordered record.  `type` is
always present; `value`, `line`, `level` are present when the field is
not `None` (Python `is not None`); `children` and `metadata` are
present when non-empty (Python truthiness of list/dict). -/
def ASTNode.to_dict : ASTNode → List (String × JVal)
  | ASTNode.mk t v ch ln lv md =>
    [("type", JVal.s t.tag)]
    ++ (match v with
        | some s => [("value", JVal.s s)]
        | none => [])
    ++ (match ch with
        | [] => []
        | c :: cs => [("children", JVal.arr (toDictList (c :: cs)))])
    ++ (match ln with
        | some k => [("line", JVal.n k)]
        | none => [])
    ++ (match lv with
        | some k => [("level", JVal.n k)]
        | none => [])
    ++ (match md with
        | [] => []
        | m :: ms => [("metadata", JVal.obj ((m :: ms).map (fun p => (p.1, JVal.s p.2))))])

def toDictList : List ASTNode → List JVal
  | [] => []
  | x :: xs => JVal.obj x.to_dict :: toDictList xs

end

/-! ## Character classes and string helpers

ASCII readings of Python's `\d`, `\s`, `\w`, `[A-Za-z0-9]`,
`str.strip`/`str.lstrip` (no argument: whitespace), and
`str.lstrip(' ')`. -/

/-- Python whitespace (`\s`, `str.strip()` default set), ASCII part. -/
def isPySpace (c : Char) : Bool :=
  c = ' ' || c = '\t' || c = '\n' || c = '\x0d' || c = '\x0b' || c = '\x0c'

/-- Python `\d`, ASCII part. -/
def isPyDigit (c : Char) : Bool := c.isDigit

/-- Python `\w`, ASCII part. -/
def isPyWord (c : Char) : Bool := c.isAlphanum || c = '_'

/-- The explicit class `[A-Za-z0-9]`. -/
def isAlnumAscii (c : Char) : Bool := c.isAlphanum

/-- Python `str.lstrip()`. -/
def pyLstrip (s : String) : String := String.mk (s.data.dropWhile isPySpace)

/-- Python `str.strip()`. -/
def pyStrip (s : String) : String :=
  String.mk (((s.data.dropWhile isPySpace).reverse.dropWhile isPySpace).reverse)

/-- Join lines with newlines (`'\n'.join(lines)`). -/
def joinNL (ls : List String) : String := String.intercalate ("\n") ls

/-- The `_get_indent_level` method:
`(len(line) - len(line.lstrip(' '))) // 4` — count of leading space
characters (only `' '`, per `lstrip(' ')`) divided by `INDENT_SIZE = 4`. -/
def getIndentLevel (line : String) : Nat :=
  (line.data.takeWhile (fun c => c = ' ')).length / 4

/-- Does `line.lstrip()` start with `"- "`? (used by the section body
dispatcher, the paragraph stop condition and the unordered list parser). -/
def lstripDashSpace (line : String) : Bool :=
  match (pyLstrip line).data with
  | '-' :: ' ' :: _ => true
  | _ => false

/-- `line.startswith('|<---')` (the check for the end-marker rule used
by `_parse_sections`, `_parse_section_body` and `_parse_footer_notes`;
in the source it is guarded by `line and ...`, which is redundant since
a line with this prefix is non-empty). -/
def startsMarkerRule (line : String) : Bool :=
  match line.data with
  | '|' :: '<' :: '-' :: '-' :: '-' :: _ => true
  | _ => false

/-! ## Regular-expression matchers

Each `re.match` of the source is translated into a deterministic
function.  All the patterns alternate disjoint character classes
(digits / `'.'` / whitespace / word characters), so Python's greedy
matching with backtracking coincides with maximal munch; the one place
where two classes overlap (`\s+` followed by `(.+)$` in the
ordered-list pattern) is resolved explicitly below. -/

/-- `re.match(r'^\d+\.\s+\w+:', line)` (disclaimer lookahead trigger). -/
def matchDisclaimerBreak (s : String) : Bool :=
  let cs := s.data
  let ds := cs.takeWhile isPyDigit
  if ds.isEmpty then false else
  match cs.drop ds.length with
  | '.' :: rest =>
    let ws := rest.takeWhile isPySpace
    if ws.isEmpty then false else
    let rest2 := rest.drop ws.length
    let wd := rest2.takeWhile isPyWord
    if wd.isEmpty then false else
    match rest2.drop wd.length with
    | ':' :: _ => true
    | _ => false
  | _ => false

/-- `re.match(r'^(\d+)\.\s\s(.+):$', line)`: main-section header.
Returns the two captured groups (number, title). -/
def matchMainHeader (s : String) : Option (String × String) :=
  let cs := s.data
  let ds := cs.takeWhile isPyDigit
  if ds.isEmpty then none else
  match cs.drop ds.length with
  | '.' :: c1 :: c2 :: rest =>
    if isPySpace c1 && isPySpace c2 then
      match rest.getLast? with
      | some ':' =>
        let mid := rest.dropLast
        if mid.isEmpty then none else some (String.mk ds, String.mk mid)
      | _ => none
    else none
  | _ => none

/-- `re.match(r'^(\d+\.\d+)\s(.+):$', line)`: subsection header.
Returns the two captured groups (number, title). -/
def matchSubHeader (s : String) : Option (String × String) :=
  let cs := s.data
  let d1 := cs.takeWhile isPyDigit
  if d1.isEmpty then none else
  match cs.drop d1.length with
  | '.' :: rest1 =>
    let d2 := rest1.takeWhile isPyDigit
    if d2.isEmpty then none else
    match rest1.drop d2.length with
    | c1 :: rest =>
      if isPySpace c1 then
        match rest.getLast? with
        | some ':' =>
          let mid := rest.dropLast
          if mid.isEmpty then none
          else some (String.mk (d1 ++ '.' :: d2), String.mk mid)
        | _ => none
      else none
    | [] => none
  | _ => none

/-- `re.match(r'^\d+\.\s\s\w+:', line)` (section-body stop: main header). -/
def matchBodyMainBreak (s : String) : Bool :=
  let cs := s.data
  let ds := cs.takeWhile isPyDigit
  if ds.isEmpty then false else
  match cs.drop ds.length with
  | '.' :: c1 :: c2 :: rest =>
    if isPySpace c1 && isPySpace c2 then
      let wd := rest.takeWhile isPyWord
      if wd.isEmpty then false else
      match rest.drop wd.length with
      | ':' :: _ => true
      | _ => false
    else false
  | _ => false

/-- `re.match(r'^\d+\.\d+\s\w+:', line)` (section-body stop: subsection). -/
def matchBodySubBreak (s : String) : Bool :=
  let cs := s.data
  let d1 := cs.takeWhile isPyDigit
  if d1.isEmpty then false else
  match cs.drop d1.length with
  | '.' :: rest1 =>
    let d2 := rest1.takeWhile isPyDigit
    if d2.isEmpty then false else
    match rest1.drop d2.length with
    | c1 :: rest =>
      if isPySpace c1 then
        let wd := rest.takeWhile isPyWord
        if wd.isEmpty then false else
        match rest.drop wd.length with
        | ':' :: _ => true
        | _ => false
      else false
    | [] => false
  | _ => false

/-- `re.match(r'^\s*[A-Za-z0-9]+\.\s+', line)` (section-body dispatch
to the ordered list parser). -/
def matchOrderedDispatch (s : String) : Bool :=
  let cs := s.data
  let ws := cs.takeWhile isPySpace
  let r1 := cs.drop ws.length
  let al := r1.takeWhile isAlnumAscii
  if al.isEmpty then false else
  match r1.drop al.length with
  | '.' :: r2 => !(r2.takeWhile isPySpace).isEmpty
  | _ => false

/-- `re.match(r'^\d+\.', line)` (paragraph stop condition). -/
def matchParaNum (s : String) : Bool :=
  let ds := s.data.takeWhile isPyDigit
  if ds.isEmpty then false else
  match s.data.drop ds.length with
  | '.' :: _ => true
  | _ => false

/-- `re.match(r'^(\s*)([A-Za-z0-9]+)\.\s+(.+)$', line)`: ordered list
item; returns the three captured groups (leading whitespace, ordinal
label, content).  The greedy `\s+` yields as little as one character
back to `(.+)` when everything after the dot is whitespace, so the
whitespace actually kept by `\s+` is `min k (length - 1)` characters
where `k` is the length of the maximal whitespace run. -/
def matchOrderedItem (s : String) : Option (String × String × String) :=
  let cs := s.data
  let ws := cs.takeWhile isPySpace
  let r1 := cs.drop ws.length
  let al := r1.takeWhile isAlnumAscii
  if al.isEmpty then none else
  match r1.drop al.length with
  | '.' :: t =>
    let k := (t.takeWhile isPySpace).length
    let j := min k (t.length - 1)
    if 1 ≤ j then some (String.mk ws, String.mk al, String.mk (t.drop j))
    else none
  | _ => none

/-! ## Marker literals (`_parse_begin_marker` / `_parse_end_marker`) -/

/-- The 31-dash rule body: `"-" * 31`. -/
def markerDashes : String := String.mk (List.replicate 31 '-')

/-- The rule with its angle brackets: `"<" + "-" * 31 + ">"`. -/
def markerRule : String := String.append (String.append ("<") markerDashes) (">")

/-- The exact begin-marker line:
`"|" + marker + "[ BEGIN-CRFCF ]" + marker + "|"`. -/
def beginMarkerExpected : String :=
  String.append
    (String.append
      (String.append
        (String.append ("|") markerRule) ("[ BEGIN-CRFCF ]")) markerRule) ("|")

/-- The exact end-marker line:
`"|" + marker + "[ ENDED-CRFCF ]" + marker + "|"`. -/
def endMarkerExpected : String :=
  String.append
    (String.append
      (String.append
        (String.append ("|") markerRule) ("[ ENDED-CRFCF ]")) markerRule) ("|")

/-! ## Parsers

State is passed explicitly: the list of not-yet-consumed lines together
with the 1-based `current_line` counter (`_consume_line` pops the head
and increments the counter). -/

/-- `_parse_begin_marker`: consume one line; if it is not the exact
begin-marker literal (or input is empty, so the consumed "line" is
`None`) raise `SyntaxError` carrying `self.current_line`; otherwise
produce a `begin_marker` node with `line=self.current_line`. -/
def parse_begin_marker (ls : List String) (n : Nat) :
    Except Nat (ASTNode × List String × Nat) :=
  match ls with
  | [] => Except.error n
  | l :: rest =>
    if l = beginMarkerExpected then
      Except.ok (ASTNode.mk NodeType.begin_marker none [] (some (n + 1)) none [], rest, n + 1)
    else Except.error (n + 1)

/-- `_parse_end_marker`: consume one line; raise only when the consumed
line is truthy (non-`None` and non-empty) and differs from the exact
end-marker literal; otherwise produce an `end_marker` node with
`line=self.current_line`. -/
def parse_end_marker (ls : List String) (n : Nat) :
    Except Nat (ASTNode × List String × Nat) :=
  match ls with
  | [] => Except.ok (ASTNode.mk NodeType.end_marker none [] (some n) none [], [], n)
  | l :: rest =>
    if l ≠ "" ∧ l ≠ endMarkerExpected then Except.error (n + 1)
    else Except.ok (ASTNode.mk NodeType.end_marker none [] (some (n + 1)) none [], rest, n + 1)

/-- The leading-blank-skip loop of `_parse_disclaimer`
(`while self._peek_line() == '': self._consume_line()`). -/
def skipBlankLines : List String → Nat → (List String × Nat)
  | [], n => ([], n)
  | l :: rest, n => if l = "" then skipBlankLines rest (n + 1) else (l :: rest, n)

/-- The accumulation loop of `_parse_disclaimer`: stop at end of input,
at a line matching the main-header lookahead `^\d+\.\s+\w+:`, or when
the current line and the next line are both blank; otherwise consume
and accumulate.  Returns (accumulated lines, remaining lines, counter). -/
def disclaimerLoop : List String → Nat → (List String × List String × Nat)
  | [], n => ([], [], n)
  | l :: rest, n =>
    if matchDisclaimerBreak l then ([], l :: rest, n)
    else if l = "" ∧ rest.head? = some ("") then ([], l :: rest, n)
    else
      let r := disclaimerLoop rest (n + 1)
      (l :: r.1, r.2.1, r.2.2)

/-- `_parse_disclaimer`: skip leading blanks, record `start`, run the
accumulation loop, join with newlines and strip. -/
def parse_disclaimer (ls : List String) (n : Nat) : ASTNode × List String × Nat :=
  let s := skipBlankLines ls n
  let r := disclaimerLoop s.1 s.2
  (ASTNode.mk NodeType.disclaimer (some (pyStrip (joinNL r.1))) [] (some s.2) none [],
   r.2.1, r.2.2)

/-- The accumulation loop of `_parse_paragraph`: stop before a blank
line, a line whose left-trim starts with `"- "`, or a line matching
`^\d+\.`; otherwise consume and accumulate. -/
def paragraphLoop : List String → Nat → (List String × List String × Nat)
  | [], n => ([], [], n)
  | l :: rest, n =>
    if l = "" then ([], l :: rest, n)
    else if lstripDashSpace l then ([], l :: rest, n)
    else if matchParaNum l then ([], l :: rest, n)
    else
      let r := paragraphLoop rest (n + 1)
      (l :: r.1, r.2.1, r.2.2)

/-- `_parse_paragraph`: `start` is the counter before the loop; the
indent level comes from the first accumulated line; returns no node
when nothing was accumulated. -/
def parse_paragraph (ls : List String) (n : Nat) : Option ASTNode × List String × Nat :=
  let r := paragraphLoop ls n
  match r.1 with
  | [] => (none, r.2.1, r.2.2)
  | first :: restAcc =>
    (some (ASTNode.mk NodeType.paragraph (some (joinNL (first :: restAcc))) []
      (some n) (some (getIndentLevel first)) []), r.2.1, r.2.2)

/-- The accumulation loop of `_parse_unordered_list`: each consumed
line whose left-trim starts with `"- "` becomes a `list_item` with
`value = item_line.strip()[2:]`, `level` from the raw line's indent and
`line = self.current_line` as read after consuming (that is `n + 1`). -/
def unorderedLoop : List String → Nat → (List ASTNode × List String × Nat)
  | [], n => ([], [], n)
  | l :: rest, n =>
    if lstripDashSpace l then
      let item := ASTNode.mk NodeType.list_item
        (some (String.mk ((pyStrip l).data.drop 2))) [] (some (n + 1))
        (some (getIndentLevel l)) []
      let r := unorderedLoop rest (n + 1)
      (item :: r.1, r.2.1, r.2.2)
    else ([], l :: rest, n)

/-- `_parse_unordered_list`: wraps the items (if any) in an
`unordered_list` node carrying the counter value from before the loop. -/
def parse_unordered_list (ls : List String) (n : Nat) : Option ASTNode × List String × Nat :=
  let r := unorderedLoop ls n
  match r.1 with
  | [] => (none, r.2.1, r.2.2)
  | i :: irest =>
    (some (ASTNode.mk NodeType.unordered_list none (i :: irest) (some n) none []),
     r.2.1, r.2.2)

/-- The accumulation loop of `_parse_ordered_list`: each consumed line
matching `^(\s*)([A-Za-z0-9]+)\.\s+(.+)$` becomes a `list_item` with
`value` = content group, `level = len(leading_ws) // 4`,
`metadata = {"number": label}` and `line = self.current_line` as read
after consuming. -/
def orderedLoop : List String → Nat → (List ASTNode × List String × Nat)
  | [], n => ([], [], n)
  | l :: rest, n =>
    match matchOrderedItem l with
    | none => ([], l :: rest, n)
    | some g =>
      let item := ASTNode.mk NodeType.list_item (some g.2.2) [] (some (n + 1))
        (some (g.1.length / 4)) [("number", g.2.1)]
      let r := orderedLoop rest (n + 1)
      (item :: r.1, r.2.1, r.2.2)

/-- `_parse_ordered_list`: wraps the items (if any) in an
`ordered_list` node carrying the counter value from before the loop. -/
def parse_ordered_list (ls : List String) (n : Nat) : Option ASTNode × List String × Nat :=
  let r := orderedLoop ls n
  match r.1 with
  | [] => (none, r.2.1, r.2.2)
  | i :: irest =>
    (some (ASTNode.mk NodeType.ordered_list none (i :: irest) (some n) none []),
     r.2.1, r.2.2)

/-- The loop of `_parse_section_body`: stop (without consuming) at a
main/subsection header pattern or the start of the end-marker rule;
consume and discard blank lines; otherwise dispatch to the unordered
list, ordered list, or paragraph parser in that priority order.  The
fuel argument models nontermination of the Python `while` loop: a
dispatched sub-parser that consumes nothing leaves the state unchanged
and the Python loop never terminates, which here exhausts the fuel and
yields `none`. -/
def sectionBodyLoop : Nat → List String → Nat → List ASTNode →
    Option (List ASTNode × List String × Nat)
  | 0, _, _, _ => none
  | fuel + 1, ls, n, acc =>
    match ls with
    | [] => some (acc, [], n)
    | l :: rest =>
      if matchBodyMainBreak l then some (acc, l :: rest, n)
      else if matchBodySubBreak l then some (acc, l :: rest, n)
      else if startsMarkerRule l then some (acc, l :: rest, n)
      else if l = "" then sectionBodyLoop fuel rest (n + 1) acc
      else if lstripDashSpace l then
        let r := parse_unordered_list (l :: rest) n
        match r.1 with
        | some node => sectionBodyLoop fuel r.2.1 r.2.2 (acc ++ [node])
        | none => sectionBodyLoop fuel r.2.1 r.2.2 acc
      else if matchOrderedDispatch l then
        let r := parse_ordered_list (l :: rest) n
        match r.1 with
        | some node => sectionBodyLoop fuel r.2.1 r.2.2 (acc ++ [node])
        | none => sectionBodyLoop fuel r.2.1 r.2.2 acc
      else
        let r := parse_paragraph (l :: rest) n
        match r.1 with
        | some node => sectionBodyLoop fuel r.2.1 r.2.2 (acc ++ [node])
        | none => sectionBodyLoop fuel r.2.1 r.2.2 acc

/-- `_parse_section_body`: runs the body loop and wraps the collected
children in a `section_body` node (no `value`, no `line`, no `level`:
the `level` parameter of the Python method is never used). -/
def parse_section_body (level : Nat) (ls : List String) (n : Nat) :
    Option (ASTNode × List String × Nat) :=
  match sectionBodyLoop (ls.length + 1) ls n [] with
  | none => none
  | some r => some (ASTNode.mk NodeType.section_body none r.1 none none [], r.2.1, r.2.2)

/-- `_parse_main_section`: consume the header line, record
`start = self.current_line` (already incremented by the consume), skip
one following blank line, parse the body at level 1, and wrap header
and body.  The unreachable cases (empty input / non-matching header,
which would crash Python) yield `none`; the dispatcher guards them. -/
def parse_main_section (ls : List String) (n : Nat) :
    Option (ASTNode × List String × Nat) :=
  match ls with
  | [] => none
  | l :: rest =>
    match matchMainHeader l with
    | none => none
    | some g =>
      let start := n + 1
      let afterBlank : List String × Nat :=
        match rest with
        | r :: rs => if r = "" then (rs, start + 1) else (r :: rs, start)
        | [] => ([], start)
      match parse_section_body 1 afterBlank.1 afterBlank.2 with
      | none => none
      | some b =>
        let header := ASTNode.mk NodeType.section_header
          (some (String.append (String.append g.1 (".  ")) g.2))
          [] (some start) none [("number", g.1), ("title", g.2)]
        some (ASTNode.mk NodeType.main_section none [header, b.1] (some start) none [],
              b.2.1, b.2.2)

/-- `_parse_subsection`: same shape as the main section with the
subsection pattern and header value `"{num} {title}"`. -/
def parse_subsection (ls : List String) (n : Nat) :
    Option (ASTNode × List String × Nat) :=
  match ls with
  | [] => none
  | l :: rest =>
    match matchSubHeader l with
    | none => none
    | some g =>
      let start := n + 1
      let afterBlank : List String × Nat :=
        match rest with
        | r :: rs => if r = "" then (rs, start + 1) else (r :: rs, start)
        | [] => ([], start)
      match parse_section_body 1 afterBlank.1 afterBlank.2 with
      | none => none
      | some b =>
        let header := ASTNode.mk NodeType.section_header
          (some (String.append (String.append g.1 (" ")) g.2))
          [] (some start) none [("number", g.1), ("title", g.2)]
        some (ASTNode.mk NodeType.subsection none [header, b.1] (some start) none [],
              b.2.1, b.2.2)

/-- `_parse_specific_section`: consume the header line; its title is
`header_line.strip()[2:-1]`, its level the indent level of the raw
line; skip one blank; body at `indent + 1`; header and section both
carry the level. -/
def parse_specific_section (ls : List String) (n : Nat) :
    Option (ASTNode × List String × Nat) :=
  match ls with
  | [] => none
  | l :: rest =>
    let start := n + 1
    let indent := getIndentLevel l
    let title := String.mk (((pyStrip l).data.drop 2).dropLast)
    let afterBlank : List String × Nat :=
      match rest with
      | r :: rs => if r = "" then (rs, start + 1) else (r :: rs, start)
      | [] => ([], start)
    match parse_section_body (indent + 1) afterBlank.1 afterBlank.2 with
    | none => none
    | some b =>
      let header := ASTNode.mk NodeType.section_header (some title) []
        (some start) (some indent) []
      some (ASTNode.mk NodeType.specific_section none [header, b.1]
        (some start) (some indent) [], b.2.1, b.2.2)

/-- The specific-section test of `_parse_section`:
`stripped = line.lstrip(); stripped.startswith('- ') and
stripped[2:].endswith(':')`. -/
def isSpecificHeader (line : String) : Bool :=
  match (pyLstrip line).data with
  | '-' :: ' ' :: rest => rest.getLast? = some ':'
  | _ => false

/-- `_parse_section`: peek at the current line; an absent or empty line
(`if not line`) yields no section; otherwise try the main pattern, the
subsection pattern, and the specific-section shape in that order; if
none matches, yield no section without consuming anything. -/
def parse_section (ls : List String) (n : Nat) :
    Option (Option ASTNode × List String × Nat) :=
  match ls with
  | [] => some (none, [], n)
  | l :: rest =>
    if l = "" then some (none, l :: rest, n)
    else if (matchMainHeader l).isSome then
      match parse_main_section (l :: rest) n with
      | none => none
      | some r => some (some r.1, r.2.1, r.2.2)
    else if (matchSubHeader l).isSome then
      match parse_subsection (l :: rest) n with
      | none => none
      | some r => some (some r.1, r.2.1, r.2.2)
    else if isSpecificHeader l then
      match parse_specific_section (l :: rest) n with
      | none => none
      | some r => some (some r.1, r.2.1, r.2.2)
    else some (none, l :: rest, n)

/-- The loop of `_parse_sections`: stop at end of input or at a line
starting the end-marker rule; consume blank lines; otherwise call the
dispatcher.  A dispatcher result of "no section" leaves the state
unchanged, so the Python loop never terminates; here the fuel is
exhausted and the loop yields `none`. -/
def sectionsLoop : Nat → List String → Nat → List ASTNode →
    Option (List ASTNode × List String × Nat)
  | 0, _, _, _ => none
  | fuel + 1, ls, n, acc =>
    match ls with
    | [] => some (acc, [], n)
    | l :: rest =>
      if startsMarkerRule l then some (acc, l :: rest, n)
      else if l = "" then sectionsLoop fuel rest (n + 1) acc
      else
        match parse_section (l :: rest) n with
        | none => none
        | some r =>
          match r.1 with
          | some node => sectionsLoop fuel r.2.1 r.2.2 (acc ++ [node])
          | none => sectionsLoop fuel r.2.1 r.2.2 acc

/-- `_parse_sections` with enough fuel for every terminating run. -/
def parse_sections (ls : List String) (n : Nat) :
    Option (List ASTNode × List String × Nat) :=
  sectionsLoop (ls.length + 1) ls n []

/-- The inner accumulation loop of `_parse_footer_notes`: consume every
line up to (not including) a line starting the end-marker rule. -/
def footerInner : List String → Nat → (List String × List String × Nat)
  | [], n => ([], [], n)
  | l :: rest, n =>
    if startsMarkerRule l then ([], l :: rest, n)
    else
      let r := footerInner rest (n + 1)
      (l :: r.1, r.2.1, r.2.2)

/-- The `while footer_lines and footer_lines[-1] == '': pop` loop. -/
def dropTrailingBlanks (ls : List String) : List String :=
  (ls.reverse.dropWhile (fun l => l = "")).reverse

/-- The outer loop of `_parse_footer_notes`: skip fully blank lines;
stop at the end-marker rule or end of input; on the first line with
non-empty `strip()`, run the inner loop, trim trailing blank lines and
produce a `footer_notes` node if anything remains. -/
def footerOuter : List String → Nat → (Option ASTNode × List String × Nat)
  | [], n => (none, [], n)
  | l :: rest, n =>
    if startsMarkerRule l then (none, l :: rest, n)
    else if pyStrip l ≠ "" then
      let r := footerInner (l :: rest) n
      match dropTrailingBlanks r.1 with
      | [] => (none, r.2.1, r.2.2)
      | t :: ts =>
        (some (ASTNode.mk NodeType.footer_notes (some (pyStrip (joinNL (t :: ts)))) []
          (some n) none []), r.2.1, r.2.2)
    else footerOuter rest (n + 1)

/-- `_parse_footer_notes`. -/
def parse_footer_notes (ls : List String) (n : Nat) : Option ASTNode × List String × Nat :=
  footerOuter ls n

/-- The pure core of `parse_file`: the file contents have already been
split into lines by `content.splitlines()` (reading and decoding the
file is outside the parsing engine).  Runs begin marker, disclaimer,
sections, footer notes and end marker in order and assembles the
`document` root.  `none` models nontermination; `some (Except.error k)`
models `SyntaxError` citing line `k`. -/
def parse_document (lines : List String) : Option (Except Nat ASTNode) :=
  match parse_begin_marker lines 1 with
  | Except.error n => some (Except.error n)
  | Except.ok b =>
    let d := parse_disclaimer b.2.1 b.2.2
    match parse_sections d.2.1 d.2.2 with
    | none => none
    | some s =>
      let f := parse_footer_notes s.2.1 s.2.2
      match parse_end_marker f.2.1 f.2.2 with
      | Except.error n => some (Except.error n)
      | Except.ok e =>
        let footChildren : List ASTNode :=
          match f.1 with
          | some fn => [fn]
          | none => []
        some (Except.ok (ASTNode.mk NodeType.document none
          (b.1 :: d.1 :: (s.1 ++ footChildren ++ [e.1])) none none []))

/-- The parser state at the end-marker position: remaining lines and
counter after begin marker, disclaimer, sections and footer notes have
run (`none` when the begin marker fails or the section loop diverges). -/
def middleRemaining (lines : List String) : Option (List String × Nat) :=
  match parse_begin_marker lines 1 with
  | Except.error _ => none
  | Except.ok b =>
    let d := parse_disclaimer b.2.1 b.2.2
    match parse_sections d.2.1 d.2.2 with
    | none => none
    | some s =>
      let f := parse_footer_notes s.2.1 s.2.2
      some (f.2.1, f.2.2)

mutual

/-- All nodes of a tree (the node itself and, recursively, the nodes
of its children). -/
def ASTNode.subnodes : ASTNode → List ASTNode
  | ASTNode.mk t v ch ln lv md => ASTNode.mk t v ch ln lv md :: subnodesList ch

def subnodesList : List ASTNode → List ASTNode
  | [] => []
  | x :: xs => x.subnodes ++ subnodesList xs

end

/-! ## Claim theorems -/

/-- C1 (counterexample): the literal claimed by the specification —
`|` followed by 31 dashes, the tag `[ BEGIN-CRFCF ]`, 31 dashes and
`|`, with no angle brackets — is rejected by `_parse_begin_marker`
(with a structural error), so it is not the accepted begin marker. -/
theorem C1_counterexample :
    parse_begin_marker
      [String.append
        (String.append
          (String.append
            (String.append ("|") (String.mk (List.replicate 31 '-')))
            ("[ BEGIN-CRFCF ]"))
          (String.mk (List.replicate 31 '-')))
        ("|")] 1
      = Except.error 2 := by
  have h : (String.append
      (String.append
        (String.append
          (String.append ("|") (String.mk (List.replicate 31 '-')))
          ("[ BEGIN-CRFCF ]"))
        (String.mk (List.replicate 31 '-')))
      ("|")) = beginMarkerExpected ↔ False := by decide
  simp [parse_begin_marker, h.mp]
  intro hc
  exact absurd hc h.mp

/-- C1 (amended): the begin marker accepted by `_parse_begin_marker`
is exactly the literal line `|<` + 31 dashes + `>[ BEGIN-CRFCF ]<` +
31 dashes + `>|`: for every input, the first line is accepted as the
begin marker if and only if it equals this literal byte-for-byte; the
end marker literal has the same shape with tag `[ ENDED-CRFCF ]`. -/
theorem C1_marker_literal (lines : List String) (n : Nat) :
    ((∃ node rest k, parse_begin_marker lines n = Except.ok (node, rest, k)) ↔
      lines.head? = some (String.append
        (String.append
          (String.append
            (String.append ("|<") (String.mk (List.replicate 31 '-')))
            (">[ BEGIN-CRFCF ]<"))
          (String.mk (List.replicate 31 '-')))
        (">|")))
    ∧ endMarkerExpected = String.append
        (String.append
          (String.append
            (String.append ("|<") (String.mk (List.replicate 31 '-')))
            (">[ ENDED-CRFCF ]<"))
          (String.mk (List.replicate 31 '-')))
        (">|") := by
  have hb : beginMarkerExpected = String.append
      (String.append
        (String.append
          (String.append ("|<") (String.mk (List.replicate 31 '-')))
          (">[ BEGIN-CRFCF ]<"))
        (String.mk (List.replicate 31 '-')))
      (">|") := by decide
  refine ⟨?_, by decide⟩
  cases lines with
  | nil => simp [parse_begin_marker]
  | cons l rest =>
    rw [← hb]
    by_cases h : l = beginMarkerExpected
    · subst h
      simp [parse_begin_marker]
    · simp [parse_begin_marker, h]

/-- C4: on every non-empty input whose first line is not the begin
marker, the structural violation carries line number 2, not 1 (the
counter is incremented by `_consume_line` before the error is raised);
only for empty input does it carry line 1. -/
theorem C4_begin_error_line :
    parse_document [("oops")] = some (Except.error 2)
    ∧ parse_document [] = some (Except.error 1) :=
  ⟨rfl, rfl⟩

/-- C5: the literal line `1.  Overview:` (two spaces) is parsed by the
section dispatcher as a `main_section` whose header carries metadata
`number="1"`, `title="Overview"`; the literal line `1.1 Details:` (one
space) is parsed as a `subsection` with `number="1.1"`,
`title="Details"`; and neither line matches the other section's
pattern. -/
theorem C5_header_disambiguation :
    parse_section [("1.  Overview:")] 1 =
      some (some (ASTNode.mk NodeType.main_section none
        [ASTNode.mk NodeType.section_header (some ("1.  Overview")) [] (some 2) none
          [("number", "1"), ("title", "Overview")],
         ASTNode.mk NodeType.section_body none [] none none []]
        (some 2) none []), [], 2)
    ∧ parse_section [("1.1 Details:")] 1 =
      some (some (ASTNode.mk NodeType.subsection none
        [ASTNode.mk NodeType.section_header (some ("1.1 Details")) [] (some 2) none
          [("number", "1.1"), ("title", "Details")],
         ASTNode.mk NodeType.section_body none [] none none []]
        (some 2) none []), [], 2)
    ∧ matchMainHeader ("1.1 Details:") = none
    ∧ matchSubHeader ("1.  Overview:") = none :=
  ⟨rfl, rfl, rfl, rfl⟩

/-- C8: node `line` fields record `self.current_line` after the
consuming read, which is one greater than the 1-based source line
where the construct began.  On this document the begin marker (source
line 1) carries `line=2`, the section header (source line 4) carries
`line=5`, and the list item (source line 5) carries `line=6`; the
disclaimer, the unordered-list wrapper and the paragraph-style `start`
positions are recorded before consuming and are correct. -/
theorem C8_line_numbers :
    parse_document [beginMarkerExpected, ("intro"), (""), ("1.  A:"), ("- x")] =
      some (Except.ok (ASTNode.mk NodeType.document none
        [ASTNode.mk NodeType.begin_marker none [] (some 2) none [],
         ASTNode.mk NodeType.disclaimer (some ("intro")) [] (some 2) none [],
         ASTNode.mk NodeType.main_section none
           [ASTNode.mk NodeType.section_header (some ("1.  A")) [] (some 5) none
             [("number", "1"), ("title", "A")],
            ASTNode.mk NodeType.section_body none
              [ASTNode.mk NodeType.unordered_list none
                [ASTNode.mk NodeType.list_item (some ("x")) [] (some 6) (some 0) []]
                (some 5) none []]
              none none []]
           (some 5) none [],
         ASTNode.mk NodeType.end_marker none [] (some 6) none []]
        none none [])) :=
  rfl

/-- C2: parsing does not terminate on every input.  When the section
dispatcher is reached on a line that matches none of the three header
patterns (here the line `hello`), `_parse_section` returns `None`
without consuming anything and the `_parse_sections` loop repeats the
identical state forever: the loop yields `none` for every amount of
fuel, and the whole parse of a document containing such a line after a
double-blank diverges. -/
theorem C2_nontermination :
    (∀ (fuel n : Nat) (acc : List ASTNode), sectionsLoop fuel [("hello")] n acc = none)
    ∧ parse_document [beginMarkerExpected, ("text"), (""), (""), ("hello")] = none := by
  constructor
  · intro fuel
    induction fuel with
    | zero => intro n acc; rfl
    | succ k ih =>
      intro n acc
      exact Eq.trans (by rfl) (ih n acc)
  · rfl

/-- C10 (counterexample): `to_dict` keeps a key whose field is the
empty string.  Parsing a document with no disclaimer text produces a
disclaimer node with `value=""` (reachable from `parse_file`), and its
`to_dict` record contains the key `value` mapped to the empty string,
although the claim says a key with an empty field is absent. -/
theorem C10_counterexample :
    ∃ t, parse_document [beginMarkerExpected] = some (Except.ok t) ∧
      ∃ d, d ∈ t.children ∧ d.value = some ("") ∧
        (("value"), JVal.s ("")) ∈ ASTNode.to_dict d := by
  refine ⟨ASTNode.mk NodeType.document none
    [ASTNode.mk NodeType.begin_marker none [] (some 2) none [],
     ASTNode.mk NodeType.disclaimer (some ("")) [] (some 2) none [],
     ASTNode.mk NodeType.end_marker none [] (some 2) none []] none none [],
    rfl,
    ASTNode.mk NodeType.disclaimer (some ("")) [] (some 2) none [],
    ?_, rfl, ?_⟩
  · exact List.Mem.tail _ (List.Mem.head _)
  · show (("value"), JVal.s ("")) ∈
      [(("type"), JVal.s ("disclaimer")), (("value"), JVal.s ("")), (("line"), JVal.n 2)]
    exact List.Mem.tail _ (List.Mem.head _)

/-- C10 (amended): `to_dict` produces a record in the fixed key order
`type`, `value`, `children`, `line`, `level`, `metadata`, where `type`
is always present (first) as the enumeration tag string, `value`,
`line` and `level` are present exactly when the field is not null
(an empty string `value` is still emitted), and `children` and
`metadata` are present exactly when non-empty. -/
theorem C10_to_dict_keys (node : ASTNode) :
    ((ASTNode.to_dict node).map Prod.fst =
      ("type") :: ((if node.value.isSome then [("value")] else [])
        ++ (if node.children.isEmpty then [] else [("children")])
        ++ (if node.line.isSome then [("line")] else [])
        ++ (if node.level.isSome then [("level")] else [])
        ++ (if node.metadata.isEmpty then [] else [("metadata")])))
    ∧ (ASTNode.to_dict node).head? = some (("type"), JVal.s node.node_type.tag) := by
  obtain ⟨t, v, ch, ln, lv, md⟩ := node
  constructor
  · cases v <;> cases ch <;> cases ln <;> cases lv <;> cases md <;>
      simp [ASTNode.to_dict, ASTNode.value, ASTNode.children, ASTNode.line,
        ASTNode.level, ASTNode.metadata]
  · cases v <;> cases ch <;> cases ln <;> cases lv <;> cases md <;>
      simp [ASTNode.to_dict, ASTNode.node_type]

/-- No two adjacent entries of the list are both empty strings. -/
def noTwoAdjacentBlanks : List String → Bool
  | [] => true
  | [_] => true
  | a :: b :: rest => !(a = "" && b = "") && noTwoAdjacentBlanks (b :: rest)

theorem noTwoAdjacentBlanks_tail {l : String} {ls : List String}
    (h : noTwoAdjacentBlanks (l :: ls) = true) : noTwoAdjacentBlanks ls = true := by
  cases ls with
  | nil => rfl
  | cons b bs =>
    simp only [noTwoAdjacentBlanks, Bool.and_eq_true] at h
    exact h.2

/-- On a body whose lines never match the header lookahead, with no two
adjacent blanks (also counting the blank right after the body), the
disclaimer loop consumes exactly the body and stops at the double
blank. -/
theorem disclaimerLoop_append (body : List String) :
    ∀ (rest : List String) (n : Nat),
      (∀ l ∈ body, matchDisclaimerBreak l = false) →
      noTwoAdjacentBlanks (body ++ [("")]) = true →
      disclaimerLoop (body ++ ("") :: ("") :: rest) n =
        (body, ("") :: ("") :: rest, n + body.length) := by
  induction body with
  | nil =>
    intro rest n _ _
    have hmb : matchDisclaimerBreak ("") = false := by decide
    simp [disclaimerLoop, hmb]
  | cons l body' ih =>
    intro rest n h1 h2
    have hl : matchDisclaimerBreak l = false := h1 l (List.mem_cons_self l body')
    have hcond : ¬(l = "" ∧ (body' ++ ("") :: ("") :: rest).head? = some ("")) := by
      cases body' with
      | nil =>
        intro hc
        rw [hc.1] at h2
        simp [noTwoAdjacentBlanks] at h2
      | cons b bs =>
        intro hc
        have hb : b = "" := by simpa using hc.2
        rw [hc.1, hb] at h2
        simp [noTwoAdjacentBlanks] at h2
    have ih' := ih rest (n + 1) (fun x hx => h1 x (List.mem_cons_of_mem _ hx))
      (noTwoAdjacentBlanks_tail (by simpa using h2))
    rw [List.cons_append, disclaimerLoop, if_neg (by simp [hl]), if_neg hcond]
    simp only [ih', List.length_cons]
    have harith : n + 1 + body'.length = n + (body'.length + 1) := by omega
    rw [harith]

/-- C7: a disclaimer body (non-empty, not starting blank, no line
matching the header lookahead, no two adjacent blank lines including
the boundary with the terminator) followed immediately by two blank
lines yields a disclaimer node whose value is exactly the body lines
joined with newlines and stripped; both blank lines and everything
after them are excluded, and the cursor stops at the first blank. -/
theorem C7_disclaimer_termination (body rest : List String) (n : Nat)
    (h0 : body ≠ [])
    (h1 : ∀ l ∈ body, matchDisclaimerBreak l = false)
    (h2 : noTwoAdjacentBlanks (body ++ [("")]) = true)
    (h3 : body.head? ≠ some ("")) :
    parse_disclaimer (body ++ ("") :: ("") :: rest) n =
      (ASTNode.mk NodeType.disclaimer (some (pyStrip (joinNL body))) [] (some n) none [],
       ("") :: ("") :: rest, n + body.length) := by
  obtain ⟨b, bs, rfl⟩ : ∃ b bs, body = b :: bs := by
    cases body with
    | nil => exact absurd rfl h0
    | cons b bs => exact ⟨b, bs, rfl⟩
  have hb : b ≠ "" := by
    intro he
    exact h3 (by rw [he]; rfl)
  have hskip : skipBlankLines ((b :: bs) ++ ("") :: ("") :: rest) n
      = ((b :: bs) ++ ("") :: ("") :: rest, n) := by
    rw [List.cons_append, skipBlankLines, if_neg hb]
  have hloop := disclaimerLoop_append (b :: bs) rest n h1 h2
  simp only [parse_disclaimer, hskip, hloop]

/-- C7 witness: the theorem applied at a concrete input. -/
theorem C7_disclaimer_termination_witness :
    parse_disclaimer (["alpha", "beta"] ++ ("") :: ("") :: ["x"]) 5 =
      (ASTNode.mk NodeType.disclaimer (some (pyStrip (joinNL ["alpha", "beta"]))) []
        (some 5) none [],
       ("") :: ("") :: ["x"], 5 + (["alpha", "beta"] : List String).length) :=
  C7_disclaimer_termination ["alpha", "beta"] ["x"] 5 (by decide) (by decide)
    (by decide) (by decide)

theorem parse_begin_marker_error_iff (ls : List String) (n : Nat) :
    (∃ k, parse_begin_marker ls n = Except.error k) ↔
      ls.head? ≠ some beginMarkerExpected := by
  cases ls with
  | nil => simp [parse_begin_marker]
  | cons l rest =>
    by_cases h : l = beginMarkerExpected
    · subst h
      simp [parse_begin_marker]
    · simp [parse_begin_marker, h]

theorem parse_begin_marker_ok_head {ls : List String} {n : Nat}
    {b : ASTNode × List String × Nat} (h : parse_begin_marker ls n = Except.ok b) :
    ls.head? = some beginMarkerExpected := by
  cases ls with
  | nil => simp [parse_begin_marker] at h
  | cons l rest =>
    by_cases hl : l = beginMarkerExpected
    · rw [hl]
      rfl
    · simp [parse_begin_marker, hl] at h

theorem startsMarkerRule_ne_empty {l : String} (h : startsMarkerRule l = true) :
    l ≠ "" := by
  intro he
  rw [he] at h
  exact absurd h (by decide)

/-- The inner footer loop stops only at end of input or at a line that
starts the end-marker rule. -/
theorem footerInner_rem (ls : List String) :
    ∀ n, (footerInner ls n).2.1 = [] ∨
      ∃ l t, (footerInner ls n).2.1 = l :: t ∧ startsMarkerRule l = true := by
  induction ls with
  | nil => intro n; left; rfl
  | cons l rest ih =>
    intro n
    by_cases h : startsMarkerRule l = true
    · right
      exact ⟨l, rest, by simp [footerInner, h], h⟩
    · have hstep : (footerInner (l :: rest) n).2.1 = (footerInner rest (n + 1)).2.1 := by
        simp [footerInner, h]
      rw [hstep]
      exact ih (n + 1)

/-- After `_parse_footer_notes`, the remaining input is empty or starts
with a line starting the end-marker rule (in particular it is never a
blank line). -/
theorem footerOuter_rem (ls : List String) :
    ∀ n, (footerOuter ls n).2.1 = [] ∨
      ∃ l t, (footerOuter ls n).2.1 = l :: t ∧ startsMarkerRule l = true := by
  induction ls with
  | nil => intro n; left; rfl
  | cons l rest ih =>
    intro n
    by_cases h1 : startsMarkerRule l = true
    · right
      exact ⟨l, rest, by simp [footerOuter, h1], h1⟩
    · by_cases h2 : pyStrip l ≠ ""
      · have hi := footerInner_rem (l :: rest) n
        have hstep : (footerOuter (l :: rest) n).2.1 = (footerInner (l :: rest) n).2.1 := by
          cases hdt : dropTrailingBlanks (footerInner (l :: rest) n).1 with
          | nil => simp [footerOuter, h1, h2, hdt]
          | cons t ts => simp [footerOuter, h1, h2, hdt]
        rw [hstep]
        exact hi
      · have hstep : footerOuter (l :: rest) n = footerOuter rest (n + 1) := by
          rw [footerOuter, if_neg (by simp [h1]), if_neg h2]
        rw [hstep]
        exact ih (n + 1)

/-- C3: a structural violation is raised in exactly two cases and no
others: when the first consumed line fails to match the begin-marker
literal, and when the line at the end-marker position (after begin
marker, disclaimer, sections and footer notes have run) is present but
fails to match the end-marker literal.  When no line remains at the
end-marker position, the end marker is accepted anyway and the
document's last child is an `end_marker` node built without any
content validation.  (On inputs where the section loop diverges the
parse produces nothing at all — it raises no error.) -/
theorem C3_error_cases (lines : List String) :
    ((∃ k, parse_document lines = some (Except.error k)) ↔
      (lines.head? ≠ some beginMarkerExpected ∨
        ∃ ms, middleRemaining lines = some ms ∧
          ∃ l, ms.1.head? = some l ∧ l ≠ endMarkerExpected))
    ∧ (∀ ms, middleRemaining lines = some ms → ms.1 = [] →
        ∃ t, parse_document lines = some (Except.ok t) ∧
          t.children.getLast? =
            some (ASTNode.mk NodeType.end_marker none [] (some ms.2) none [])) := by
  cases hbm : parse_begin_marker lines 1 with
  | error k =>
    have hhead : lines.head? ≠ some beginMarkerExpected :=
      (parse_begin_marker_error_iff lines 1).mp ⟨k, hbm⟩
    refine ⟨⟨fun _ => Or.inl hhead, fun _ => ⟨k, by simp [parse_document, hbm]⟩⟩, ?_⟩
    intro ms hms
    simp [middleRemaining, hbm] at hms
  | ok b =>
    have hhead : lines.head? = some beginMarkerExpected := parse_begin_marker_ok_head hbm
    cases hs : parse_sections (parse_disclaimer b.2.1 b.2.2).2.1
        (parse_disclaimer b.2.1 b.2.2).2.2 with
    | none =>
      have hpd : parse_document lines = none := by
        simp [parse_document, hbm, hs]
      have hmr : middleRemaining lines = none := by
        simp [middleRemaining, hbm, hs]
      refine ⟨⟨?_, ?_⟩, ?_⟩
      · rintro ⟨k, hk⟩
        rw [hpd] at hk
        exact absurd hk (by simp)
      · rintro (h | ⟨ms, hms, _⟩)
        · exact absurd hhead h
        · rw [hmr] at hms
          exact absurd hms (by simp)
      · intro ms hms
        rw [hmr] at hms
        exact absurd hms (by simp)
    | some s =>
      have hmr : middleRemaining lines =
          some ((footerOuter s.2.1 s.2.2).2.1, (footerOuter s.2.1 s.2.2).2.2) := by
        simp [middleRemaining, hbm, hs, parse_footer_notes]
      cases hrem : (footerOuter s.2.1 s.2.2).2.1 with
      | nil =>
        rw [hrem] at hmr
        have hpd : parse_document lines = some (Except.ok (ASTNode.mk NodeType.document none
            (b.1 :: (parse_disclaimer b.2.1 b.2.2).1 ::
              (s.1 ++ (match (footerOuter s.2.1 s.2.2).1 with
                | some fn => [fn]
                | none => ([] : List ASTNode)) ++
                [ASTNode.mk NodeType.end_marker none []
                  (some (footerOuter s.2.1 s.2.2).2.2) none []]))
            none none [])) := by
          simp only [parse_document, hbm, hs, parse_footer_notes, hrem, parse_end_marker]
        refine ⟨⟨?_, ?_⟩, ?_⟩
        · rintro ⟨k, hk⟩
          rw [hpd] at hk
          simp at hk
        · rintro (h | ⟨ms, hms, l, hl, _⟩)
          · exact absurd hhead h
          · rw [hmr] at hms
            obtain rfl : ms = ([], (footerOuter s.2.1 s.2.2).2.2) := by
              injection hms with h1
              exact h1.symm
            simp at hl
        · intro ms hms hnil
          rw [hmr] at hms
          obtain rfl : ms = ([], (footerOuter s.2.1 s.2.2).2.2) := by
            injection hms with h1
            exact h1.symm
          refine ⟨_, hpd, ?_⟩
          show (b.1 :: (parse_disclaimer b.2.1 b.2.2).1 ::
              (s.1 ++ (match (footerOuter s.2.1 s.2.2).1 with
                | some fn => [fn]
                | none => ([] : List ASTNode)) ++
                [ASTNode.mk NodeType.end_marker none []
                  (some (footerOuter s.2.1 s.2.2).2.2) none []])).getLast? = _
          rw [show (b.1 :: (parse_disclaimer b.2.1 b.2.2).1 ::
              (s.1 ++ (match (footerOuter s.2.1 s.2.2).1 with
                | some fn => [fn]
                | none => ([] : List ASTNode)) ++
                [ASTNode.mk NodeType.end_marker none []
                  (some (footerOuter s.2.1 s.2.2).2.2) none []]))
              = (b.1 :: (parse_disclaimer b.2.1 b.2.2).1 ::
                (s.1 ++ (match (footerOuter s.2.1 s.2.2).1 with
                  | some fn => [fn]
                  | none => ([] : List ASTNode)))) ++
                [ASTNode.mk NodeType.end_marker none []
                  (some (footerOuter s.2.1 s.2.2).2.2) none []] by simp]
          exact List.getLast?_concat _
      | cons l t =>
        rw [hrem] at hmr
        have hmark : startsMarkerRule l = true := by
          rcases footerOuter_rem s.2.1 s.2.2 with h0 | ⟨l', t', he, hm⟩
          · rw [hrem] at h0
            exact absurd h0 (by simp)
          · rw [hrem] at he
            injection he with h1 h2
            rw [h1]
            exact hm
        have hlne : l ≠ "" := startsMarkerRule_ne_empty hmark
        by_cases hle : l = endMarkerExpected
        · have hpd : parse_document lines = some (Except.ok (ASTNode.mk NodeType.document none
              (b.1 :: (parse_disclaimer b.2.1 b.2.2).1 ::
                (s.1 ++ (match (footerOuter s.2.1 s.2.2).1 with
                  | some fn => [fn]
                  | none => ([] : List ASTNode)) ++
                  [ASTNode.mk NodeType.end_marker none []
                    (some ((footerOuter s.2.1 s.2.2).2.2 + 1)) none []]))
              none none [])) := by
            simp only [parse_document, hbm, hs, parse_footer_notes, hrem, parse_end_marker]
            rw [if_neg (by intro hc; exact hc.2 hle)]
          refine ⟨⟨?_, ?_⟩, ?_⟩
          · rintro ⟨k, hk⟩
            rw [hpd] at hk
            simp at hk
          · rintro (h | ⟨ms, hms, l', hl', hne⟩)
            · exact absurd hhead h
            · rw [hmr] at hms
              obtain rfl : ms = (l :: t, (footerOuter s.2.1 s.2.2).2.2) := by
                injection hms with h1
                exact h1.symm
              obtain rfl : l' = l := by
                simpa using hl'.symm
              exact absurd hle hne
          · intro ms hms hnil
            rw [hmr] at hms
            obtain rfl : ms = (l :: t, (footerOuter s.2.1 s.2.2).2.2) := by
              injection hms with h1
              exact h1.symm
            simp at hnil
        · have hpd : parse_document lines =
              some (Except.error ((footerOuter s.2.1 s.2.2).2.2 + 1)) := by
            simp only [parse_document, hbm, hs, parse_footer_notes, hrem, parse_end_marker]
            rw [if_pos ⟨hlne, hle⟩]
          refine ⟨⟨?_, ?_⟩, ?_⟩
          · intro _
            exact Or.inr ⟨(l :: t, (footerOuter s.2.1 s.2.2).2.2), hmr, l, rfl, hle⟩
          · intro _
            exact ⟨(footerOuter s.2.1 s.2.2).2.2 + 1, hpd⟩
          · intro ms hms hnil
            rw [hmr] at hms
            obtain rfl : ms = (l :: t, (footerOuter s.2.1 s.2.2).2.2) := by
              injection hms with h1
              exact h1.symm
            simp at hnil

/-- C3 witness: the theorem applied at concrete inputs — a bad first
line raises, and a document that is just the begin marker parses with
an `end_marker` last child accepted without a line to validate. -/
theorem C3_error_cases_witness :
    (∃ k, parse_document [("x")] = some (Except.error k))
    ∧ (∃ t, parse_document [beginMarkerExpected] = some (Except.ok t) ∧
        t.children.getLast? = some (ASTNode.mk NodeType.end_marker none [] (some 2) none [])) :=
  ⟨(C3_error_cases [("x")]).1.mpr (Or.inl (by decide)),
   (C3_error_cases [beginMarkerExpected]).2 ([], 2) rfl rfl⟩

theorem parse_begin_marker_ok_type {ls : List String} {n : Nat}
    {b : ASTNode × List String × Nat} (h : parse_begin_marker ls n = Except.ok b) :
    b.1.node_type = NodeType.begin_marker := by
  cases ls with
  | nil => simp [parse_begin_marker] at h
  | cons l rest =>
    by_cases hl : l = beginMarkerExpected
    · rw [parse_begin_marker, if_pos hl] at h
      injection h with h1
      rw [← h1]
      rfl
    · rw [parse_begin_marker, if_neg hl] at h
      simp at h

theorem parse_end_marker_ok_type {ls : List String} {n : Nat}
    {e : ASTNode × List String × Nat} (h : parse_end_marker ls n = Except.ok e) :
    e.1.node_type = NodeType.end_marker := by
  cases ls with
  | nil =>
    rw [parse_end_marker] at h
    injection h with h1
    rw [← h1]
    rfl
  | cons l rest =>
    by_cases hc : l ≠ "" ∧ l ≠ endMarkerExpected
    · rw [parse_end_marker, if_pos hc] at h
      simp at h
    · rw [parse_end_marker, if_neg hc] at h
      injection h with h1
      rw [← h1]
      rfl

theorem parse_main_section_type {ls : List String} {n : Nat}
    {r : ASTNode × List String × Nat} (h : parse_main_section ls n = some r) :
    r.1.node_type = NodeType.main_section := by
  cases ls with
  | nil => simp [parse_main_section] at h
  | cons l rest =>
    cases hm : matchMainHeader l with
    | none => simp [parse_main_section, hm] at h
    | some g =>
      rw [parse_main_section, hm] at h
      dsimp only at h
      split at h
      · simp at h
      · injection h with h1
        rw [← h1]
        rfl

theorem parse_subsection_type {ls : List String} {n : Nat}
    {r : ASTNode × List String × Nat} (h : parse_subsection ls n = some r) :
    r.1.node_type = NodeType.subsection := by
  cases ls with
  | nil => simp [parse_subsection] at h
  | cons l rest =>
    cases hm : matchSubHeader l with
    | none => simp [parse_subsection, hm] at h
    | some g =>
      rw [parse_subsection, hm] at h
      dsimp only at h
      split at h
      · simp at h
      · injection h with h1
        rw [← h1]
        rfl

theorem parse_specific_section_type {ls : List String} {n : Nat}
    {r : ASTNode × List String × Nat} (h : parse_specific_section ls n = some r) :
    r.1.node_type = NodeType.specific_section := by
  cases ls with
  | nil => simp [parse_specific_section] at h
  | cons l rest =>
    rw [parse_specific_section.eq_def] at h
    dsimp only at h
    split at h
    · simp at h
    · injection h with h1
      rw [← h1]
      rfl

theorem parse_section_type {ls : List String} {n : Nat}
    {r : Option ASTNode × List String × Nat} (h : parse_section ls n = some r)
    {node : ASTNode} (hn : r.1 = some node) :
    node.node_type = NodeType.main_section ∨ node.node_type = NodeType.subsection ∨
      node.node_type = NodeType.specific_section := by
  cases ls with
  | nil =>
    rw [parse_section] at h
    injection h with h1
    rw [← h1] at hn
    simp at hn
  | cons l rest =>
    rw [parse_section] at h
    by_cases h0 : l = ""
    · rw [if_pos h0] at h
      injection h with h1
      rw [← h1] at hn
      simp at hn
    · rw [if_neg h0] at h
      by_cases h1 : (matchMainHeader l).isSome = true
      · rw [if_pos h1] at h
        cases hps : parse_main_section (l :: rest) n with
        | none => rw [hps] at h; simp at h
        | some q =>
          rw [hps] at h
          injection h with h2
          rw [← h2] at hn
          have hq : node = q.1 := by
            injection hn with h3
            exact h3.symm
          rw [hq]
          exact Or.inl (parse_main_section_type hps)
      · rw [if_neg h1] at h
        by_cases h2 : (matchSubHeader l).isSome = true
        · rw [if_pos h2] at h
          cases hps : parse_subsection (l :: rest) n with
          | none => rw [hps] at h; simp at h
          | some q =>
            rw [hps] at h
            injection h with h3
            rw [← h3] at hn
            have hq : node = q.1 := by
              injection hn with h4
              exact h4.symm
            rw [hq]
            exact Or.inr (Or.inl (parse_subsection_type hps))
        · rw [if_neg h2] at h
          by_cases h3 : isSpecificHeader l = true
          · rw [if_pos h3] at h
            cases hps : parse_specific_section (l :: rest) n with
            | none => rw [hps] at h; simp at h
            | some q =>
              rw [hps] at h
              injection h with h4
              rw [← h4] at hn
              have hq : node = q.1 := by
                injection hn with h5
                exact h5.symm
              rw [hq]
              exact Or.inr (Or.inr (parse_specific_section_type hps))
          · rw [if_neg h3] at h
            injection h with h4
            rw [← h4] at hn
            simp at hn

/-- Every node produced by the section loop is a `main_section`, a
`subsection` or a `specific_section`. -/
theorem sectionsLoop_types : ∀ (fuel : Nat) (ls : List String) (n : Nat)
    (acc : List ASTNode) (res : List ASTNode × List String × Nat),
    sectionsLoop fuel ls n acc = some res →
    (∀ a ∈ acc, a.node_type = NodeType.main_section ∨ a.node_type = NodeType.subsection ∨
      a.node_type = NodeType.specific_section) →
    ∀ x ∈ res.1, x.node_type = NodeType.main_section ∨ x.node_type = NodeType.subsection ∨
      x.node_type = NodeType.specific_section := by
  intro fuel
  induction fuel with
  | zero =>
    intro ls n acc res h hacc
    simp [sectionsLoop] at h
  | succ k ih =>
    intro ls n acc res h hacc
    cases ls with
    | nil =>
      rw [sectionsLoop] at h
      injection h with h1
      rw [← h1]
      exact hacc
    | cons l rest =>
      rw [sectionsLoop] at h
      by_cases h1 : startsMarkerRule l = true
      · rw [if_pos h1] at h
        injection h with h2
        rw [← h2]
        exact hacc
      · rw [if_neg h1] at h
        by_cases h2 : l = ""
        · rw [if_pos h2] at h
          exact ih rest (n + 1) acc res h hacc
        · rw [if_neg h2] at h
          cases hps : parse_section (l :: rest) n with
          | none => rw [hps] at h; simp at h
          | some r2 =>
            rw [hps] at h
            dsimp only at h
            cases hr : r2.1 with
            | some node =>
              rw [hr] at h
              refine ih r2.2.1 r2.2.2 (acc ++ [node]) res h ?_
              intro a ha
              rcases List.mem_append.mp ha with ha' | ha'
              · exact hacc a ha'
              · have : a = node := by simpa using ha'
                rw [this]
                exact parse_section_type hps hr
            | none =>
              rw [hr] at h
              exact ih r2.2.1 r2.2.2 acc res h hacc

theorem footerOuter_type (ls : List String) :
    ∀ (n : Nat) (f : ASTNode), (footerOuter ls n).1 = some f →
      f.node_type = NodeType.footer_notes := by
  induction ls with
  | nil =>
    intro n f hf
    simp [footerOuter] at hf
  | cons l rest ih =>
    intro n f hf
    by_cases h1 : startsMarkerRule l = true
    · simp [footerOuter, h1] at hf
    · by_cases h2 : pyStrip l ≠ ""
      · cases hdt : dropTrailingBlanks (footerInner (l :: rest) n).1 with
        | nil => simp [footerOuter, h1, h2, hdt] at hf
        | cons t ts =>
          have hstep : (footerOuter (l :: rest) n).1 =
              some (ASTNode.mk NodeType.footer_notes
                (some (pyStrip (joinNL (t :: ts)))) [] (some n) none []) := by
            simp [footerOuter, h1, h2, hdt]
          rw [hstep] at hf
          injection hf with h3
          rw [← h3]
          rfl
      · have hstep : footerOuter (l :: rest) n = footerOuter rest (n + 1) := by
          rw [footerOuter, if_neg (by simp [h1]), if_neg h2]
        rw [hstep] at hf
        exact ih (n + 1) f hf

/-- C6: for every input that parses successfully, the root is a
`document` node whose children are exactly, in order: a `begin_marker`
first, then a `disclaimer`, then each parsed section (each of them a
`main_section`, `subsection` or `specific_section`) in document order,
then a `footer_notes` node if one was produced, then an `end_marker`
last. -/
theorem C6_document_shape (lines : List String) (t : ASTNode)
    (h : parse_document lines = some (Except.ok t)) :
    t.node_type = NodeType.document ∧
    ∃ bm disc secs footOpt em,
      t.children = bm :: disc :: (secs ++ footOpt ++ [em]) ∧
      bm.node_type = NodeType.begin_marker ∧
      disc.node_type = NodeType.disclaimer ∧
      (∀ s ∈ secs, s.node_type = NodeType.main_section ∨
        s.node_type = NodeType.subsection ∨ s.node_type = NodeType.specific_section) ∧
      (footOpt = [] ∨ ∃ f, footOpt = [f] ∧ f.node_type = NodeType.footer_notes) ∧
      em.node_type = NodeType.end_marker := by
  cases hbm : parse_begin_marker lines 1 with
  | error k => simp [parse_document, hbm] at h
  | ok b =>
    cases hs : parse_sections (parse_disclaimer b.2.1 b.2.2).2.1
        (parse_disclaimer b.2.1 b.2.2).2.2 with
    | none => simp [parse_document, hbm, hs] at h
    | some s =>
      cases hem : parse_end_marker (parse_footer_notes s.2.1 s.2.2).2.1
          (parse_footer_notes s.2.1 s.2.2).2.2 with
      | error k => simp [parse_document, hbm, hs, hem] at h
      | ok e =>
        have hdoc : parse_document lines = some (Except.ok (ASTNode.mk NodeType.document none
            (b.1 :: (parse_disclaimer b.2.1 b.2.2).1 ::
              (s.1 ++ (match (parse_footer_notes s.2.1 s.2.2).1 with
                | some fn => [fn]
                | none => ([] : List ASTNode)) ++ [e.1])) none none [])) := by
          simp [parse_document, hbm, hs, hem]
        rw [hdoc] at h
        simp only [Option.some.injEq, Except.ok.injEq] at h
        rw [← h]
        refine ⟨rfl, b.1, (parse_disclaimer b.2.1 b.2.2).1, s.1,
          (match (parse_footer_notes s.2.1 s.2.2).1 with
            | some fn => [fn]
            | none => ([] : List ASTNode)), e.1,
          rfl, parse_begin_marker_ok_type hbm, rfl, ?_, ?_,
          parse_end_marker_ok_type hem⟩
        · exact sectionsLoop_types _ _ _ [] s hs (by intro a ha; simp at ha)
        · cases hf : (parse_footer_notes s.2.1 s.2.2).1 with
          | none =>
            left
            rfl
          | some fn =>
            right
            exact ⟨fn, rfl, footerOuter_type _ _ _ hf⟩

/-- C6 witness: the theorem applied to a concrete successful parse. -/
theorem C6_document_shape_witness :
    (ASTNode.mk NodeType.document none
      [ASTNode.mk NodeType.begin_marker none [] (some 2) none [],
       ASTNode.mk NodeType.disclaimer (some ("")) [] (some 2) none [],
       ASTNode.mk NodeType.end_marker none [] (some 2) none []]
      none none []).node_type = NodeType.document ∧
    ∃ bm disc secs footOpt em,
      (ASTNode.mk NodeType.document none
        [ASTNode.mk NodeType.begin_marker none [] (some 2) none [],
         ASTNode.mk NodeType.disclaimer (some ("")) [] (some 2) none [],
         ASTNode.mk NodeType.end_marker none [] (some 2) none []]
        none none []).children = bm :: disc :: (secs ++ footOpt ++ [em]) ∧
      bm.node_type = NodeType.begin_marker ∧
      disc.node_type = NodeType.disclaimer ∧
      (∀ s ∈ secs, s.node_type = NodeType.main_section ∨
        s.node_type = NodeType.subsection ∨ s.node_type = NodeType.specific_section) ∧
      (footOpt = [] ∨ ∃ f, footOpt = [f] ∧ f.node_type = NodeType.footer_notes) ∧
      em.node_type = NodeType.end_marker :=
  C6_document_shape [beginMarkerExpected]
    (ASTNode.mk NodeType.document none
      [ASTNode.mk NodeType.begin_marker none [] (some 2) none [],
       ASTNode.mk NodeType.disclaimer (some ("")) [] (some 2) none [],
       ASTNode.mk NodeType.end_marker none [] (some 2) none []]
      none none []) rfl

/-- C9 (counterexample): in a successful parse, the `section_body`
node of a main section carries no `level` at all (the `level`
parameter of `_parse_section_body` is unused and the node is built
without one), and the `section_header` of a main section carries no
`level` either — contradicting the claim that every `section_header`
and `section_body` node carries a non-negative `level`. -/
theorem C9_counterexample :
    ∃ t, parse_document [beginMarkerExpected, ("intro"), (""), ("1.  A:"), ("- x")] =
        some (Except.ok t) ∧
      ∃ sec, sec ∈ t.children ∧ sec.node_type = NodeType.main_section ∧
        (∃ hb, hb ∈ sec.children ∧ hb.node_type = NodeType.section_body ∧ hb.level = none) ∧
        (∃ hh, hh ∈ sec.children ∧ hh.node_type = NodeType.section_header ∧
          hh.level = none) := by
  refine ⟨ASTNode.mk NodeType.document none
      [ASTNode.mk NodeType.begin_marker none [] (some 2) none [],
       ASTNode.mk NodeType.disclaimer (some ("intro")) [] (some 2) none [],
       ASTNode.mk NodeType.main_section none
         [ASTNode.mk NodeType.section_header (some ("1.  A")) [] (some 5) none
           [("number", "1"), ("title", "A")],
          ASTNode.mk NodeType.section_body none
            [ASTNode.mk NodeType.unordered_list none
              [ASTNode.mk NodeType.list_item (some ("x")) [] (some 6) (some 0) []]
              (some 5) none []]
            none none []]
         (some 5) none [],
       ASTNode.mk NodeType.end_marker none [] (some 6) none []]
      none none [],
    rfl,
    ASTNode.mk NodeType.main_section none
      [ASTNode.mk NodeType.section_header (some ("1.  A")) [] (some 5) none
        [("number", "1"), ("title", "A")],
       ASTNode.mk NodeType.section_body none
         [ASTNode.mk NodeType.unordered_list none
           [ASTNode.mk NodeType.list_item (some ("x")) [] (some 6) (some 0) []]
           (some 5) none []]
         none none []]
      (some 5) none [],
    List.Mem.tail _ (List.Mem.tail _ (List.Mem.head _)), rfl,
    ⟨ASTNode.mk NodeType.section_body none
        [ASTNode.mk NodeType.unordered_list none
          [ASTNode.mk NodeType.list_item (some ("x")) [] (some 6) (some 0) []]
          (some 5) none []]
        none none [],
      List.Mem.tail _ (List.Mem.head _), rfl, rfl⟩,
    ⟨ASTNode.mk NodeType.section_header (some ("1.  A")) [] (some 5) none
        [("number", "1"), ("title", "A")],
      List.Mem.head _, rfl, rfl⟩⟩

/-- Level discipline actually enforced by the parser: `paragraph`,
`list_item` and `specific_section` nodes carry a level; markers,
wrappers, `section_body` nodes and main/subsection nodes carry none;
main/subsection children are a level-less `section_header` plus a
`section_body`; specific-section children are a `section_header`
carrying a level plus a `section_body`. -/
def LevelOK (m : ASTNode) : Prop :=
  (m.node_type = NodeType.paragraph ∨ m.node_type = NodeType.list_item ∨
    m.node_type = NodeType.specific_section → m.level.isSome = true)
  ∧ (m.node_type = NodeType.document ∨ m.node_type = NodeType.begin_marker ∨
      m.node_type = NodeType.end_marker ∨ m.node_type = NodeType.disclaimer ∨
      m.node_type = NodeType.section_body ∨ m.node_type = NodeType.main_section ∨
      m.node_type = NodeType.subsection ∨ m.node_type = NodeType.ordered_list ∨
      m.node_type = NodeType.unordered_list ∨ m.node_type = NodeType.footer_notes →
      m.level = none)
  ∧ (m.node_type = NodeType.main_section ∨ m.node_type = NodeType.subsection →
      ∃ hh bb, m.children = [hh, bb] ∧ hh.node_type = NodeType.section_header ∧
        hh.level = none ∧ bb.node_type = NodeType.section_body)
  ∧ (m.node_type = NodeType.specific_section →
      ∃ hh bb, m.children = [hh, bb] ∧ hh.node_type = NodeType.section_header ∧
        hh.level.isSome = true ∧ bb.node_type = NodeType.section_body)

theorem subnodes_eq (m : ASTNode) : m.subnodes = m :: subnodesList m.children := by
  cases m
  rfl

theorem subnodesList_append (a b : List ASTNode) :
    subnodesList (a ++ b) = subnodesList a ++ subnodesList b := by
  induction a with
  | nil => rfl
  | cons x xs ih => simp [subnodesList, ih, List.append_assoc]

theorem subnodes_of_leaf {m x : ASTNode} (hch : x.children = []) (hm : m ∈ x.subnodes) :
    m = x := by
  rw [subnodes_eq, hch] at hm
  simpa [subnodesList] using hm

theorem mem_subnodes_leaf {m : ASTNode} {t : NodeType} {v : Option String}
    {ln lv : Option Nat} {md : List (String × String)}
    (hm : m ∈ (ASTNode.mk t v [] ln lv md).subnodes) : m = ASTNode.mk t v [] ln lv md := by
  rw [subnodes_eq] at hm
  rcases List.mem_cons.mp hm with rfl | hm'
  · rfl
  · simp [ASTNode.children, subnodesList] at hm'

theorem levelOK_no_level (t : NodeType) (v : Option String) (ch : List ASTNode)
    (ln : Option Nat) (md : List (String × String))
    (hp : t ≠ NodeType.paragraph) (hli : t ≠ NodeType.list_item)
    (hsp : t ≠ NodeType.specific_section)
    (hms : t ≠ NodeType.main_section) (hsub : t ≠ NodeType.subsection) :
    LevelOK (ASTNode.mk t v ch ln none md) := by
  refine ⟨?_, fun _ => rfl, ?_, ?_⟩
  · rintro (h | h | h)
    · exact absurd h hp
    · exact absurd h hli
    · exact absurd h hsp
  · rintro (h | h)
    · exact absurd h hms
    · exact absurd h hsub
  · intro h
    exact absurd h hsp

theorem levelOK_header (v : Option String) (ln lv : Option Nat)
    (md : List (String × String)) :
    LevelOK (ASTNode.mk NodeType.section_header v [] ln lv md) := by
  refine ⟨?_, ?_, ?_, ?_⟩
  · rintro (h | h | h) <;> simp [ASTNode.node_type] at h
  · rintro (h | h | h | h | h | h | h | h | h | h) <;> simp [ASTNode.node_type] at h
  · rintro (h | h) <;> simp [ASTNode.node_type] at h
  · intro h
    simp [ASTNode.node_type] at h

theorem levelOK_item (v : Option String) (ln lv : Nat) (md : List (String × String)) :
    LevelOK (ASTNode.mk NodeType.list_item v [] (some ln) (some lv) md) := by
  refine ⟨fun _ => rfl, ?_, ?_, ?_⟩
  · rintro (h | h | h | h | h | h | h | h | h | h) <;> simp [ASTNode.node_type] at h
  · rintro (h | h) <;> simp [ASTNode.node_type] at h
  · intro h
    simp [ASTNode.node_type] at h

theorem levelOK_paragraph_node (v : Option String) (ln lv : Nat) :
    LevelOK (ASTNode.mk NodeType.paragraph v [] (some ln) (some lv) []) := by
  refine ⟨fun _ => rfl, ?_, ?_, ?_⟩
  · rintro (h | h | h | h | h | h | h | h | h | h) <;> simp [ASTNode.node_type] at h
  · rintro (h | h) <;> simp [ASTNode.node_type] at h
  · intro h
    simp [ASTNode.node_type] at h

theorem levelOK_main_wrapper (tt : NodeType) (hh bb : ASTNode) (ln : Option Nat)
    (htt : tt = NodeType.main_section ∨ tt = NodeType.subsection)
    (hhh : hh.node_type = NodeType.section_header) (hhl : hh.level = none)
    (hbb : bb.node_type = NodeType.section_body) :
    LevelOK (ASTNode.mk tt none [hh, bb] ln none []) := by
  refine ⟨?_, fun _ => rfl, fun _ => ⟨hh, bb, rfl, hhh, hhl, hbb⟩, ?_⟩
  · rintro (h | h | h) <;> rcases htt with rfl | rfl <;> simp [ASTNode.node_type] at h
  · intro h
    rcases htt with rfl | rfl <;> simp [ASTNode.node_type] at h

theorem levelOK_specific_wrapper (hh bb : ASTNode) (ln lv : Nat)
    (hhh : hh.node_type = NodeType.section_header) (hhl : hh.level.isSome = true)
    (hbb : bb.node_type = NodeType.section_body) :
    LevelOK (ASTNode.mk NodeType.specific_section none [hh, bb] (some ln) (some lv) []) := by
  refine ⟨fun _ => rfl, ?_, ?_, fun _ => ⟨hh, bb, rfl, hhh, hhl, hbb⟩⟩
  · rintro (h | h | h | h | h | h | h | h | h | h) <;> simp [ASTNode.node_type] at h
  · rintro (h | h) <;> simp [ASTNode.node_type] at h

theorem unorderedLoop_ok (ls : List String) :
    ∀ (n : Nat), ∀ m ∈ subnodesList (unorderedLoop ls n).1, LevelOK m := by
  induction ls with
  | nil =>
    intro n m hm
    simp [unorderedLoop, subnodesList] at hm
  | cons l rest ih =>
    intro n m hm
    by_cases h : lstripDashSpace l = true
    · have hstep : (unorderedLoop (l :: rest) n).1 =
          ASTNode.mk NodeType.list_item (some (String.mk ((pyStrip l).data.drop 2))) []
            (some (n + 1)) (some (getIndentLevel l)) [] :: (unorderedLoop rest (n + 1)).1 := by
        simp [unorderedLoop, h]
      rw [hstep] at hm
      simp only [subnodesList, subnodes_eq, ASTNode.children, List.mem_append,
        List.mem_cons, List.not_mem_nil, or_false, List.cons_append, List.nil_append] at hm
      rcases hm with rfl | hm
      · exact levelOK_item _ _ _ _
      · exact ih (n + 1) m (by simpa [subnodesList] using hm)
    · simp [unorderedLoop, h, subnodesList] at hm

theorem orderedLoop_ok (ls : List String) :
    ∀ (n : Nat), ∀ m ∈ subnodesList (orderedLoop ls n).1, LevelOK m := by
  induction ls with
  | nil =>
    intro n m hm
    simp [orderedLoop, subnodesList] at hm
  | cons l rest ih =>
    intro n m hm
    cases hmo : matchOrderedItem l with
    | none => simp [orderedLoop, hmo, subnodesList] at hm
    | some g =>
      have hstep : (orderedLoop (l :: rest) n).1 =
          ASTNode.mk NodeType.list_item (some g.2.2) [] (some (n + 1))
            (some (g.1.length / 4)) [("number", g.2.1)] :: (orderedLoop rest (n + 1)).1 := by
        simp [orderedLoop, hmo]
      rw [hstep] at hm
      simp only [subnodesList, subnodes_eq, ASTNode.children, List.mem_append,
        List.mem_cons, List.not_mem_nil, or_false, List.cons_append, List.nil_append] at hm
      rcases hm with rfl | hm
      · exact levelOK_item _ _ _ _
      · exact ih (n + 1) m (by simpa [subnodesList] using hm)

theorem parse_unordered_list_ok {ls : List String} {n : Nat} {node : ASTNode}
    (h : (parse_unordered_list ls n).1 = some node) :
    ∀ m ∈ node.subnodes, LevelOK m := by
  cases hi : (unorderedLoop ls n).1 with
  | nil => simp [parse_unordered_list, hi] at h
  | cons i irest =>
    have hnode : node = ASTNode.mk NodeType.unordered_list none (i :: irest) (some n) none [] := by
      have : (parse_unordered_list ls n).1 =
          some (ASTNode.mk NodeType.unordered_list none (i :: irest) (some n) none []) := by
        simp [parse_unordered_list, hi]
      rw [this] at h
      injection h with h1
      exact h1.symm
    subst hnode
    intro m hm
    rw [subnodes_eq] at hm
    rcases List.mem_cons.mp hm with rfl | hm
    · exact levelOK_no_level _ _ _ _ _ (by decide) (by decide) (by decide) (by decide) (by decide)
    · have : m ∈ subnodesList (unorderedLoop ls n).1 := by
        rw [hi]
        exact hm
      exact unorderedLoop_ok ls n m this

theorem parse_ordered_list_ok {ls : List String} {n : Nat} {node : ASTNode}
    (h : (parse_ordered_list ls n).1 = some node) :
    ∀ m ∈ node.subnodes, LevelOK m := by
  cases hi : (orderedLoop ls n).1 with
  | nil => simp [parse_ordered_list, hi] at h
  | cons i irest =>
    have hnode : node = ASTNode.mk NodeType.ordered_list none (i :: irest) (some n) none [] := by
      have : (parse_ordered_list ls n).1 =
          some (ASTNode.mk NodeType.ordered_list none (i :: irest) (some n) none []) := by
        simp [parse_ordered_list, hi]
      rw [this] at h
      injection h with h1
      exact h1.symm
    subst hnode
    intro m hm
    rw [subnodes_eq] at hm
    rcases List.mem_cons.mp hm with rfl | hm
    · exact levelOK_no_level _ _ _ _ _ (by decide) (by decide) (by decide) (by decide) (by decide)
    · have : m ∈ subnodesList (orderedLoop ls n).1 := by
        rw [hi]
        exact hm
      exact orderedLoop_ok ls n m this

theorem parse_paragraph_ok {ls : List String} {n : Nat} {node : ASTNode}
    (h : (parse_paragraph ls n).1 = some node) :
    ∀ m ∈ node.subnodes, LevelOK m := by
  cases hacc : (paragraphLoop ls n).1 with
  | nil => simp [parse_paragraph, hacc] at h
  | cons first restAcc =>
    have hnode : node = ASTNode.mk NodeType.paragraph (some (joinNL (first :: restAcc))) []
        (some n) (some (getIndentLevel first)) [] := by
      have : (parse_paragraph ls n).1 =
          some (ASTNode.mk NodeType.paragraph (some (joinNL (first :: restAcc))) []
            (some n) (some (getIndentLevel first)) []) := by
        simp [parse_paragraph, hacc]
      rw [this] at h
      injection h with h1
      exact h1.symm
    subst hnode
    intro m hm
    rw [mem_subnodes_leaf hm]
    exact levelOK_paragraph_node _ _ _

theorem sectionBodyLoop_ok : ∀ (fuel : Nat) (ls : List String) (n : Nat) (acc : List ASTNode)
    (res : List ASTNode × List String × Nat),
    sectionBodyLoop fuel ls n acc = some res →
    (∀ m ∈ subnodesList acc, LevelOK m) →
    ∀ m ∈ subnodesList res.1, LevelOK m := by
  intro fuel
  induction fuel with
  | zero =>
    intro ls n acc res h hacc
    simp [sectionBodyLoop] at h
  | succ k ih =>
    intro ls n acc res h hacc
    cases ls with
    | nil =>
      rw [sectionBodyLoop] at h
      injection h with h1
      rw [← h1]
      exact hacc
    | cons l rest =>
      rw [sectionBodyLoop] at h
      dsimp only at h
      by_cases h1 : matchBodyMainBreak l = true
      · rw [if_pos h1] at h
        injection h with h2
        rw [← h2]
        exact hacc
      · rw [if_neg h1] at h
        by_cases h2 : matchBodySubBreak l = true
        · rw [if_pos h2] at h
          injection h with h3
          rw [← h3]
          exact hacc
        · rw [if_neg h2] at h
          by_cases h3 : startsMarkerRule l = true
          · rw [if_pos h3] at h
            injection h with h4
            rw [← h4]
            exact hacc
          · rw [if_neg h3] at h
            by_cases h4 : l = ""
            · rw [if_pos h4] at h
              exact ih rest (n + 1) acc res h hacc
            · rw [if_neg h4] at h
              by_cases h5 : lstripDashSpace l = true
              · rw [if_pos h5] at h
                cases hr : (parse_unordered_list (l :: rest) n).1 with
                | some node =>
                  rw [hr] at h
                  refine ih _ _ (acc ++ [node]) res h ?_
                  intro m hm
                  rw [subnodesList_append] at hm
                  rcases List.mem_append.mp hm with hm' | hm'
                  · exact hacc m hm'
                  · exact parse_unordered_list_ok hr m (by simpa [subnodesList] using hm')
                | none =>
                  rw [hr] at h
                  exact ih _ _ acc res h hacc
              · rw [if_neg h5] at h
                by_cases h6 : matchOrderedDispatch l = true
                · rw [if_pos h6] at h
                  cases hr : (parse_ordered_list (l :: rest) n).1 with
                  | some node =>
                    rw [hr] at h
                    refine ih _ _ (acc ++ [node]) res h ?_
                    intro m hm
                    rw [subnodesList_append] at hm
                    rcases List.mem_append.mp hm with hm' | hm'
                    · exact hacc m hm'
                    · exact parse_ordered_list_ok hr m (by simpa [subnodesList] using hm')
                  | none =>
                    rw [hr] at h
                    exact ih _ _ acc res h hacc
                · rw [if_neg h6] at h
                  cases hr : (parse_paragraph (l :: rest) n).1 with
                  | some node =>
                    rw [hr] at h
                    refine ih _ _ (acc ++ [node]) res h ?_
                    intro m hm
                    rw [subnodesList_append] at hm
                    rcases List.mem_append.mp hm with hm' | hm'
                    · exact hacc m hm'
                    · exact parse_paragraph_ok hr m (by simpa [subnodesList] using hm')
                  | none =>
                    rw [hr] at h
                    exact ih _ _ acc res h hacc

theorem parse_section_body_ok {lvl : Nat} {ls : List String} {n : Nat}
    {r : ASTNode × List String × Nat} (h : parse_section_body lvl ls n = some r) :
    r.1.node_type = NodeType.section_body ∧ r.1.level = none ∧
      ∀ m ∈ r.1.subnodes, LevelOK m := by
  cases hb : sectionBodyLoop (ls.length + 1) ls n [] with
  | none => simp [parse_section_body, hb] at h
  | some q =>
    have hr : r = (ASTNode.mk NodeType.section_body none q.1 none none [], q.2.1, q.2.2) := by
      rw [parse_section_body, hb] at h
      injection h with h1
      exact h1.symm
    subst hr
    refine ⟨rfl, rfl, ?_⟩
    intro m hm
    rw [subnodes_eq] at hm
    rcases List.mem_cons.mp hm with rfl | hm'
    · exact levelOK_no_level _ _ _ _ _ (by decide) (by decide) (by decide) (by decide) (by decide)
    · exact sectionBodyLoop_ok _ _ _ _ _ hb
        (by intro x hx; simp [subnodesList] at hx) m (by simpa [ASTNode.children] using hm')

theorem parse_main_section_ok {ls : List String} {n : Nat}
    {r : ASTNode × List String × Nat} (h : parse_main_section ls n = some r) :
    ∀ m ∈ r.1.subnodes, LevelOK m := by
  cases ls with
  | nil => simp [parse_main_section] at h
  | cons l rest =>
    cases hm : matchMainHeader l with
    | none => simp [parse_main_section, hm] at h
    | some g =>
      rw [parse_main_section, hm] at h
      dsimp only at h
      split at h
      · simp at h
      · rename_i b hb
        injection h with h1
        obtain ⟨hbt, hbl, hbs⟩ := parse_section_body_ok hb
        rw [← h1]
        dsimp only
        intro m hmm
        rw [subnodes_eq] at hmm
        rcases List.mem_cons.mp hmm with rfl | hm'
        · apply levelOK_main_wrapper
          · exact Or.inl rfl
          · rfl
          · rfl
          · exact hbt
        · simp only [ASTNode.children, subnodesList, List.append_nil] at hm'
          rcases List.mem_append.mp hm' with hma | hmb
          · rw [mem_subnodes_leaf hma]
            exact levelOK_header _ _ _ _
          · exact hbs m hmb

theorem parse_subsection_ok {ls : List String} {n : Nat}
    {r : ASTNode × List String × Nat} (h : parse_subsection ls n = some r) :
    ∀ m ∈ r.1.subnodes, LevelOK m := by
  cases ls with
  | nil => simp [parse_subsection] at h
  | cons l rest =>
    cases hm : matchSubHeader l with
    | none => simp [parse_subsection, hm] at h
    | some g =>
      rw [parse_subsection, hm] at h
      dsimp only at h
      split at h
      · simp at h
      · rename_i b hb
        injection h with h1
        obtain ⟨hbt, hbl, hbs⟩ := parse_section_body_ok hb
        rw [← h1]
        dsimp only
        intro m hmm
        rw [subnodes_eq] at hmm
        rcases List.mem_cons.mp hmm with rfl | hm'
        · apply levelOK_main_wrapper
          · exact Or.inr rfl
          · rfl
          · rfl
          · exact hbt
        · simp only [ASTNode.children, subnodesList, List.append_nil] at hm'
          rcases List.mem_append.mp hm' with hma | hmb
          · rw [mem_subnodes_leaf hma]
            exact levelOK_header _ _ _ _
          · exact hbs m hmb

theorem parse_specific_section_ok {ls : List String} {n : Nat}
    {r : ASTNode × List String × Nat} (h : parse_specific_section ls n = some r) :
    ∀ m ∈ r.1.subnodes, LevelOK m := by
  cases ls with
  | nil => simp [parse_specific_section] at h
  | cons l rest =>
    rw [parse_specific_section.eq_def] at h
    dsimp only at h
    split at h
    · simp at h
    · rename_i b hb
      injection h with h1
      obtain ⟨hbt, hbl, hbs⟩ := parse_section_body_ok hb
      rw [← h1]
      dsimp only
      intro m hmm
      rw [subnodes_eq] at hmm
      rcases List.mem_cons.mp hmm with rfl | hm'
      · apply levelOK_specific_wrapper
        · rfl
        · rfl
        · exact hbt
      · simp only [ASTNode.children, subnodesList, List.append_nil] at hm'
        rcases List.mem_append.mp hm' with hma | hmb
        · rw [mem_subnodes_leaf hma]
          exact levelOK_header _ _ _ _
        · exact hbs m hmb

theorem parse_section_ok {ls : List String} {n : Nat}
    {r : Option ASTNode × List String × Nat} (h : parse_section ls n = some r)
    {node : ASTNode} (hn : r.1 = some node) :
    ∀ m ∈ node.subnodes, LevelOK m := by
  cases ls with
  | nil =>
    rw [parse_section] at h
    injection h with h1
    rw [← h1] at hn
    simp at hn
  | cons l rest =>
    rw [parse_section] at h
    by_cases h0 : l = ""
    · rw [if_pos h0] at h
      injection h with h1
      rw [← h1] at hn
      simp at hn
    · rw [if_neg h0] at h
      by_cases h1 : (matchMainHeader l).isSome = true
      · rw [if_pos h1] at h
        cases hps : parse_main_section (l :: rest) n with
        | none => rw [hps] at h; simp at h
        | some q =>
          rw [hps] at h
          injection h with h2
          rw [← h2] at hn
          have hq : node = q.1 := by
            injection hn with h3
            exact h3.symm
          rw [hq]
          exact parse_main_section_ok hps
      · rw [if_neg h1] at h
        by_cases h2 : (matchSubHeader l).isSome = true
        · rw [if_pos h2] at h
          cases hps : parse_subsection (l :: rest) n with
          | none => rw [hps] at h; simp at h
          | some q =>
            rw [hps] at h
            injection h with h3
            rw [← h3] at hn
            have hq : node = q.1 := by
              injection hn with h4
              exact h4.symm
            rw [hq]
            exact parse_subsection_ok hps
        · rw [if_neg h2] at h
          by_cases h3 : isSpecificHeader l = true
          · rw [if_pos h3] at h
            cases hps : parse_specific_section (l :: rest) n with
            | none => rw [hps] at h; simp at h
            | some q =>
              rw [hps] at h
              injection h with h4
              rw [← h4] at hn
              have hq : node = q.1 := by
                injection hn with h5
                exact h5.symm
              rw [hq]
              exact parse_specific_section_ok hps
          · rw [if_neg h3] at h
            injection h with h4
            rw [← h4] at hn
            simp at hn

theorem sectionsLoop_ok : ∀ (fuel : Nat) (ls : List String) (n : Nat)
    (acc : List ASTNode) (res : List ASTNode × List String × Nat),
    sectionsLoop fuel ls n acc = some res →
    (∀ m ∈ subnodesList acc, LevelOK m) →
    ∀ m ∈ subnodesList res.1, LevelOK m := by
  intro fuel
  induction fuel with
  | zero =>
    intro ls n acc res h hacc
    simp [sectionsLoop] at h
  | succ k ih =>
    intro ls n acc res h hacc
    cases ls with
    | nil =>
      rw [sectionsLoop] at h
      injection h with h1
      rw [← h1]
      exact hacc
    | cons l rest =>
      rw [sectionsLoop] at h
      by_cases h1 : startsMarkerRule l = true
      · rw [if_pos h1] at h
        injection h with h2
        rw [← h2]
        exact hacc
      · rw [if_neg h1] at h
        by_cases h2 : l = ""
        · rw [if_pos h2] at h
          exact ih rest (n + 1) acc res h hacc
        · rw [if_neg h2] at h
          cases hps : parse_section (l :: rest) n with
          | none => rw [hps] at h; simp at h
          | some r2 =>
            rw [hps] at h
            dsimp only at h
            cases hr : r2.1 with
            | some node =>
              rw [hr] at h
              refine ih r2.2.1 r2.2.2 (acc ++ [node]) res h ?_
              intro m hm
              rw [subnodesList_append] at hm
              rcases List.mem_append.mp hm with hm' | hm'
              · exact hacc m hm'
              · exact parse_section_ok hps hr m (by simpa [subnodesList] using hm')
            | none =>
              rw [hr] at h
              exact ih r2.2.1 r2.2.2 acc res h hacc

theorem parse_begin_marker_ok_shape {ls : List String} {n : Nat}
    {b : ASTNode × List String × Nat} (h : parse_begin_marker ls n = Except.ok b) :
    b.1 = ASTNode.mk NodeType.begin_marker none [] (some (n + 1)) none [] := by
  cases ls with
  | nil => simp [parse_begin_marker] at h
  | cons l rest =>
    by_cases hl : l = beginMarkerExpected
    · rw [parse_begin_marker, if_pos hl] at h
      injection h with h1
      rw [← h1]
    · rw [parse_begin_marker, if_neg hl] at h
      simp at h

theorem parse_end_marker_ok_shape {ls : List String} {n : Nat}
    {e : ASTNode × List String × Nat} (h : parse_end_marker ls n = Except.ok e) :
    ∃ k, e.1 = ASTNode.mk NodeType.end_marker none [] (some k) none [] := by
  cases ls with
  | nil =>
    rw [parse_end_marker] at h
    injection h with h1
    exact ⟨n, by rw [← h1]⟩
  | cons l rest =>
    by_cases hc : l ≠ "" ∧ l ≠ endMarkerExpected
    · rw [parse_end_marker, if_pos hc] at h
      simp at h
    · rw [parse_end_marker, if_neg hc] at h
      injection h with h1
      exact ⟨n + 1, by rw [← h1]⟩

theorem footerOuter_shape (ls : List String) :
    ∀ (n : Nat) (f : ASTNode), (footerOuter ls n).1 = some f →
      ∃ v k, f = ASTNode.mk NodeType.footer_notes (some v) [] (some k) none [] := by
  induction ls with
  | nil =>
    intro n f hf
    simp [footerOuter] at hf
  | cons l rest ih =>
    intro n f hf
    by_cases h1 : startsMarkerRule l = true
    · simp [footerOuter, h1] at hf
    · by_cases h2 : pyStrip l ≠ ""
      · cases hdt : dropTrailingBlanks (footerInner (l :: rest) n).1 with
        | nil => simp [footerOuter, h1, h2, hdt] at hf
        | cons t ts =>
          have hstep : (footerOuter (l :: rest) n).1 =
              some (ASTNode.mk NodeType.footer_notes
                (some (pyStrip (joinNL (t :: ts)))) [] (some n) none []) := by
            simp [footerOuter, h1, h2, hdt]
          rw [hstep] at hf
          injection hf with h3
          exact ⟨pyStrip (joinNL (t :: ts)), n, h3.symm⟩
      · have hstep : footerOuter (l :: rest) n = footerOuter rest (n + 1) := by
          rw [footerOuter, if_neg (by simp [h1]), if_neg h2]
        rw [hstep] at hf
        exact ih (n + 1) f hf

theorem parse_disclaimer_ok (ls : List String) (n : Nat) :
    ∀ m ∈ (parse_disclaimer ls n).1.subnodes, LevelOK m := by
  intro m hm
  rw [mem_subnodes_leaf hm]
  exact levelOK_no_level _ _ _ _ _ (by decide) (by decide) (by decide) (by decide) (by decide)

/-- C9 (amended): in every tree returned by a successful parse,
`paragraph`, `list_item` and `specific_section` nodes carry a
(non-negative) `level`; `section_body` nodes, markers, and the other
structural wrappers (document, disclaimer, footer notes, main and
subsections, list wrappers) carry none; main/subsection children are a
level-less `section_header` plus a `section_body`, while a specific
section's `section_header` does carry a level. -/
theorem C9_level_presence (lines : List String) (t : ASTNode)
    (h : parse_document lines = some (Except.ok t)) :
    ∀ m ∈ t.subnodes, LevelOK m := by
  cases hbm : parse_begin_marker lines 1 with
  | error k => simp [parse_document, hbm] at h
  | ok b =>
    cases hs : parse_sections (parse_disclaimer b.2.1 b.2.2).2.1
        (parse_disclaimer b.2.1 b.2.2).2.2 with
    | none => simp [parse_document, hbm, hs] at h
    | some s =>
      cases hem : parse_end_marker (parse_footer_notes s.2.1 s.2.2).2.1
          (parse_footer_notes s.2.1 s.2.2).2.2 with
      | error k => simp [parse_document, hbm, hs, hem] at h
      | ok e =>
        have hdoc : parse_document lines = some (Except.ok (ASTNode.mk NodeType.document none
            (b.1 :: (parse_disclaimer b.2.1 b.2.2).1 ::
              (s.1 ++ (match (parse_footer_notes s.2.1 s.2.2).1 with
                | some fn => [fn]
                | none => ([] : List ASTNode)) ++ [e.1])) none none [])) := by
          simp [parse_document, hbm, hs, hem]
        rw [hdoc] at h
        simp only [Option.some.injEq, Except.ok.injEq] at h
        rw [← h]
        intro m hm
        rw [subnodes_eq] at hm
        rcases List.mem_cons.mp hm with rfl | hm'
        · exact levelOK_no_level _ _ _ _ _ (by decide) (by decide) (by decide)
            (by decide) (by decide)
        · simp only [ASTNode.children, subnodesList, subnodesList_append,
            List.append_nil, List.mem_append] at hm'
          rcases hm' with hb' | hd' | (hs' | hf') | he'
          · rw [parse_begin_marker_ok_shape hbm] at hb'
            rw [mem_subnodes_leaf hb']
            exact levelOK_no_level _ _ _ _ _ (by decide) (by decide) (by decide)
              (by decide) (by decide)
          · exact parse_disclaimer_ok b.2.1 b.2.2 m hd'
          · exact sectionsLoop_ok _ _ _ [] s hs
              (by intro x hx; simp [subnodesList] at hx) m hs'
          · cases hf : (parse_footer_notes s.2.1 s.2.2).1 with
            | none =>
              rw [hf] at hf'
              simp [subnodesList] at hf'
            | some fn =>
              rw [hf] at hf'
              obtain ⟨v, k, hfn⟩ := footerOuter_shape _ _ _ hf
              rw [hfn] at hf'
              simp only [subnodesList, List.append_nil] at hf'
              rw [mem_subnodes_leaf hf']
              exact levelOK_no_level _ _ _ _ _ (by decide) (by decide) (by decide)
                (by decide) (by decide)
          · obtain ⟨k, hek⟩ := parse_end_marker_ok_shape hem
            rw [hek] at he'
            rw [mem_subnodes_leaf he']
            exact levelOK_no_level _ _ _ _ _ (by decide) (by decide) (by decide)
              (by decide) (by decide)

/-- C9 witness: the level invariant applied to the `section_body` node
of a concrete successful parse. -/
theorem C9_level_presence_witness :
    LevelOK (ASTNode.mk NodeType.section_body none
      [ASTNode.mk NodeType.unordered_list none
        [ASTNode.mk NodeType.list_item (some ("x")) [] (some 6) (some 0) []]
        (some 5) none []]
      none none []) :=
  C9_level_presence [beginMarkerExpected, ("intro"), (""), ("1.  A:"), ("- x")]
    (ASTNode.mk NodeType.document none
      [ASTNode.mk NodeType.begin_marker none [] (some 2) none [],
       ASTNode.mk NodeType.disclaimer (some ("intro")) [] (some 2) none [],
       ASTNode.mk NodeType.main_section none
         [ASTNode.mk NodeType.section_header (some ("1.  A")) [] (some 5) none
           [("number", "1"), ("title", "A")],
          ASTNode.mk NodeType.section_body none
            [ASTNode.mk NodeType.unordered_list none
              [ASTNode.mk NodeType.list_item (some ("x")) [] (some 6) (some 0) []]
              (some 5) none []]
            none none []]
         (some 5) none [],
       ASTNode.mk NodeType.end_marker none [] (some 6) none []]
      none none []) rfl
    (ASTNode.mk NodeType.section_body none
      [ASTNode.mk NodeType.unordered_list none
        [ASTNode.mk NodeType.list_item (some ("x")) [] (some 6) (some 0) []]
        (some 5) none []]
      none none [])
    (List.Mem.tail _ (List.Mem.tail _ (List.Mem.tail _ (List.Mem.tail _
      (List.Mem.tail _ (List.Mem.head _))))))
